import Mathlib

/-!
Shallow embedding of the antd tunnel shellscript backend: three policy
binaries (exclusive `main.rs`, identity-aware `shp2p.rs`, shared broadcast
`shbcast.rs`) that bridge a pub/sub channel to child processes.  External
collaborator calls (reactor registration, transport writes, process spawn,
kill, reads) are recorded as an effect trace; the nondeterministic
environment (process exits, spawn success, readable bytes) is an explicit
oracle `World` passed to each dispatcher step.
-/

namespace Tunnel

/-- Message kinds of the transport protocol (`MsgKind` in the latpr crate;
only the kinds the dispatcher distinguishes are represented, everything
else is `other`). -/
inductive MsgKind where
  | channelSubscribe
  | channelUnsubscribe
  | channelUnsubscribeAll
  | channelData
  | other
deriving DecidableEq, Repr

/-- Inbound transport message: kind, client id (u16 in the source),
declared payload size and payload bytes. -/
structure Msg where
  kind : MsgKind
  client_id : Nat
  size : Nat
  data : List Nat
deriving DecidableEq, Repr

/-- One reactor callback invocation: at most one inbound message, at most
one IO-readiness event (`event.is_readable()` as a Bool) with its
descriptor. -/
structure CallbackEvent where
  msg : Option Msg
  event : Option Bool
  fd : Option Int
deriving Repr

/-- Observable side effects of one dispatcher step, in execution order. -/
inductive Effect where
  | spawn (pid : Nat)
  | spawnEnv (pid : Nat) (cuser : List Nat) (cid : List Nat)
      (stdinPiped : Bool) (stdoutPiped : Bool)
  | register_io (fd : Int)
  | unregister_io (fd : Int)
  | kill (pid : Nat)
  | writeMsg (kind : MsgKind) (cid : Nat) (payload : List Nat)
  | writeStdin (pid : Nat) (payload : List Nat)
  | readStdout (pid : Nat) (n : Nat)
deriving DecidableEq, Repr

/-- Errors a step handler can return (propagated by `?` in the source). -/
inductive RErr where
  | unknownClient (cid : Nat)
  | spawnError
  | decodeError
deriving DecidableEq, Repr

/-- Outcome of one dispatcher step: normal return, an error returned to
the step loop, or a Rust panic (index out of bounds). -/
inductive Outcome where
  | ok
  | err (e : RErr)
  | panicked
deriving DecidableEq, Repr

/-- Environment oracle for one step: whether a spawn attempted this step
succeeds, which pids `try_wait` reports as exited (with status), and the
bytes available on a pid's stdout. -/
structure World where
  spawnOk : Bool
  exited : Nat → Option Nat
  readData : Nat → List Nat

/-- A benign world: spawns succeed, nothing has exited, streams are empty. -/
def w0 : World := ⟨true, fun _ => none, fun _ => []⟩

/-- Result of one dispatcher step over state `σ`: the state and the trace
of effects produced up to the point of return, error or panic. -/
structure StepRes (σ : Type) where
  st : σ
  tr : List Effect
  out : Outcome
deriving Repr

/-- Association list lookup, modelling `HashMap::get`. -/
def lookupA {β : Type} (k : Nat) : List (Nat × β) → Option β
  | [] => none
  | (k', v) :: rest => if k' = k then some v else lookupA k rest

/-- Association list insert (replace in place or append), modelling
`HashMap::insert`. -/
def insertA {β : Type} (k : Nat) (v : β) : List (Nat × β) → List (Nat × β)
  | [] => [(k, v)]
  | (k', v') :: rest =>
    if k' = k then (k, v) :: rest else (k', v') :: insertA k v rest

/-- Association list removal of the entry for `k`, modelling
`HashMap::remove`. -/
def removeA {β : Type} (k : Nat) : List (Nat × β) → List (Nat × β)
  | [] => []
  | (k', v') :: rest => if k' = k then rest else (k', v') :: removeA k rest

/-- Concatenated image of a list under a list-valued function (the shape
of every `for` loop in the source that appends effects per entry). -/
def catMap {α β : Type} (g : α → List β) : List α → List β
  | [] => []
  | a :: l => g a ++ catMap g l

/-- UTF-8 continuation byte test. -/
def isCont (b : Nat) : Bool := 0x80 ≤ b && b ≤ 0xBF

/-- Constraints on the two continuation bytes of a three-byte sequence
(excluding overlong E0 and surrogate ED ranges, as `str::from_utf8`
does). -/
def cont3ok (b b1 b2 : Nat) : Bool :=
  (if b = 0xE0 then decide (0xA0 ≤ b1) && decide (b1 ≤ 0xBF)
   else if b = 0xED then decide (0x80 ≤ b1) && decide (b1 ≤ 0x9F)
   else isCont b1) && isCont b2

/-- Constraints on the three continuation bytes of a four-byte sequence
(excluding overlong F0 and beyond-U+10FFFF F4 ranges). -/
def cont4ok (b b1 b2 b3 : Nat) : Bool :=
  (if b = 0xF0 then decide (0x90 ≤ b1) && decide (b1 ≤ 0xBF)
   else if b = 0xF4 then decide (0x80 ≤ b1) && decide (b1 ≤ 0x8F)
   else isCont b1) && isCont b2 && isCont b3

/-- UTF-8 validity of a byte list, the acceptance condition of
`std::str::from_utf8`. -/
def utf8Valid : List Nat → Bool
  | [] => true
  | b :: rest =>
    if b ≤ 0x7F then utf8Valid rest
    else if 0xC2 ≤ b && b ≤ 0xDF then
      match rest with
      | b1 :: r => isCont b1 && utf8Valid r
      | [] => false
    else if 0xE0 ≤ b && b ≤ 0xEF then
      match rest with
      | b1 :: b2 :: r => cont3ok b b1 b2 && utf8Valid r
      | _ => false
    else if 0xF0 ≤ b && b ≤ 0xF4 then
      match rest with
      | b1 :: b2 :: b3 :: r => cont4ok b b1 b2 b3 && utf8Valid r
      | _ => false
    else false

/-- ASCII decimal rendering of a number, the bytes of
`format!("\x7b\x7d", n)`. -/
def decimalAscii (n : Nat) : List Nat := (Nat.toDigits 10 n).map Char.toNat

/-- Result of evaluating `&msg.data[0..msg.size as usize - 1]` followed by
`std::str::from_utf8`: the label bytes, a panic (size 0 underflows the
bound, or the bound exceeds the data length, both an out-of-bounds index),
or a UTF-8 decode failure. -/
inductive SliceRes where
  | okLabel (bytes : List Nat)
  | panicOOB
  | badUtf8
deriving DecidableEq, Repr

/-- Label extraction performed by the identity-aware Subscribe handlers
(`shp2p.rs` line 55, `shbcast.rs` line 27). -/
def extractUser (size : Nat) (data : List Nat) : SliceRes :=
  if size = 0 then .panicOOB
  else if size - 1 ≤ data.length then
    let lbl := data.take (size - 1)
    if utf8Valid lbl then .okLabel lbl else .badUtf8
  else .panicOOB

namespace Excl

/-- Per-client binding of the exclusive policy (`main.rs` `ClientData`):
the registered stdout descriptor and the child process (identified by a
pid drawn from the spawn counter). -/
structure ClientData where
  fd : Int
  pid : Nat
deriving DecidableEq, Repr

/-- Dispatcher state of the exclusive policy: the
`HashMap<u16, Option<ClientData>>` of subscribed clients, plus the
fresh-pid/descriptor counter used by the spawn oracle. -/
structure MState where
  clients : List (Nat × Option ClientData)
  next : Nat
deriving DecidableEq, Repr

/-- Effects of `unsubscribe_client` (`main.rs` lines 26-42): for a live
binding, unregister the descriptor first, then best-effort kill. -/
def unsubscribe_client : Option ClientData → List Effect
  | none => []
  | some cd => [.unregister_io cd.fd, .kill cd.pid]

/-- Value transformation of one registry entry by `monitor_clients`:
a bound entry whose process has exited is reset to `None`. -/
def monVal (w : World) : Option ClientData → Option ClientData
  | none => none
  | some cd => match w.exited cd.pid with
    | some _ => none
    | none => some cd

/-- Effects contributed by one registry entry during `monitor_clients`:
the descriptor of an exited bound process is unregistered. -/
def monTr (w : World) : Option ClientData → List Effect
  | none => []
  | some cd => match w.exited cd.pid with
    | some _ => [.unregister_io cd.fd]
    | none => []

/-- `monitor_clients` (`main.rs` lines 150-177): non-blocking `try_wait`
on every bound entry; exited entries have their descriptor unregistered
and are reset to `None` (the key stays in the map). -/
def monitor_clients (w : World) (s : MState) : MState × List Effect :=
  (⟨s.clients.map (fun kv => (kv.1, monVal w kv.2)), s.next⟩,
   catMap (fun kv => monTr w kv.2) s.clients)

/-- Message-handling phase of `step_handle` (`main.rs` lines 50-119). -/
def msgPhase (m : Msg) (w : World) (s : MState) : StepRes MState :=
  match m.kind with
  | .channelSubscribe =>
    ⟨⟨insertA m.client_id none s.clients, s.next⟩, [], .ok⟩
  | .channelUnsubscribe =>
    match lookupA m.client_id s.clients with
    | none => ⟨s, [], .ok⟩
    | some opt =>
      ⟨⟨removeA m.client_id s.clients, s.next⟩, unsubscribe_client opt, .ok⟩
  | .channelUnsubscribeAll =>
    ⟨⟨[], s.next⟩,
     catMap (fun kv =>
       .writeMsg .channelUnsubscribe kv.1 [] :: unsubscribe_client kv.2)
       s.clients, .ok⟩
  | .channelData =>
    match lookupA m.client_id s.clients with
    | none => ⟨s, [], .err (.unknownClient m.client_id)⟩
    | some none =>
      if w.spawnOk then
        ⟨⟨insertA m.client_id (some ⟨(s.next : Int), s.next⟩) s.clients,
          s.next + 1⟩,
         [.spawn s.next, .register_io (s.next : Int),
          .writeStdin s.next m.data], .ok⟩
      else ⟨s, [], .err .spawnError⟩
    | some (some cd) => ⟨s, [.writeStdin cd.pid m.data], .ok⟩
  | .other => ⟨s, [], .ok⟩

/-- Readiness-handling phase of `step_handle` (`main.rs` lines 129-146):
every bound entry whose descriptor equals the notified one is drained
with a read bounded to 2048 bytes, forwarded as a Data message tagged
with that client's id. -/
def readPhase (fd : Int) (w : World) (s : MState) : List Effect :=
  catMap (fun kv =>
    match kv.2 with
    | some cd =>
      if cd.fd = fd then
        [.readStdout cd.pid ((w.readData cd.pid).take 2048).length,
         .writeMsg .channelData kv.1 ((w.readData cd.pid).take 2048)]
      else []
    | none => []) s.clients

/-- One full dispatcher step of the exclusive policy (`step_handle`,
`main.rs` lines 44-148): message handling, then `monitor_clients`, then
readiness handling; an error in message handling returns early. -/
def step_handle (evt : CallbackEvent) (w : World) (s : MState) :
    StepRes MState :=
  let r1 : StepRes MState :=
    match evt.msg with
    | none => ⟨s, [], .ok⟩
    | some m => msgPhase m w s
  match r1.out with
  | .ok =>
    let mon := monitor_clients w r1.st
    match evt.event, evt.fd with
    | some readable, some fd =>
      if readable then
        ⟨mon.1, r1.tr ++ mon.2 ++ readPhase fd w mon.1, .ok⟩
      else ⟨mon.1, r1.tr ++ mon.2, .ok⟩
    | _, _ => ⟨mon.1, r1.tr ++ mon.2, .ok⟩
  | _ => r1

/-- The step loop of `main` (`main.rs` lines 211-216): steps run in
sequence until one returns an error (or panics), which stops the loop. -/
def run : List (CallbackEvent × World) → MState → MState × List Effect
  | [], s => (s, [])
  | ew :: rest, s =>
    let r := step_handle ew.1 ew.2 s
    match r.out with
    | .ok =>
      let q := run rest r.st
      (q.1, r.tr ++ q.2)
    | _ => (r.st, r.tr)

/-- Initial dispatcher state: empty client map. -/
def init : MState := ⟨[], 0⟩

end Excl

namespace P2p

/-- Per-client entry of the identity-aware policy (`shp2p.rs`
`ClientData`): descriptor (`-1` when no process), optional child process
(by pid), and the peer label captured at subscribe time. -/
structure ClientData where
  fd : Int
  child : Option Nat
  user : List Nat
deriving DecidableEq, Repr

/-- Dispatcher state of the identity-aware policy. -/
structure PState where
  clients : List (Nat × ClientData)
  next : Nat
deriving DecidableEq, Repr

/-- Effects of `unsubscribe_client` (`shp2p.rs` lines 28-44): for an
entry with a child, unregister the descriptor first, then best-effort
kill. -/
def unsubscribe_client (cd : ClientData) : List Effect :=
  match cd.child with
  | none => []
  | some pid => [.unregister_io cd.fd, .kill pid]

/-- Value transformation of one entry by `monitor_clients` (`shp2p.rs`
lines 169-187): an entry whose child exited gets `fd := -1`,
`child := None`, keeping the user label and its key. -/
def monVal (w : World) (cd : ClientData) : ClientData :=
  match cd.child with
  | none => cd
  | some pid => match w.exited pid with
    | some _ => ⟨-1, none, cd.user⟩
    | none => cd

/-- Effects contributed by one entry during `monitor_clients`. -/
def monTr (w : World) (cd : ClientData) : List Effect :=
  match cd.child with
  | none => []
  | some pid => match w.exited pid with
    | some _ => [.unregister_io cd.fd]
    | none => []

/-- `monitor_clients` (`shp2p.rs` lines 165-189). -/
def monitor_clients (w : World) (s : PState) : PState × List Effect :=
  (⟨s.clients.map (fun kv => (kv.1, monVal w kv.2)), s.next⟩,
   catMap (fun kv => monTr w kv.2) s.clients)

/-- Message-handling phase of `step_handle` (`shp2p.rs` lines 52-137). -/
def msgPhase (m : Msg) (w : World) (s : PState) : StepRes PState :=
  match m.kind with
  | .channelSubscribe =>
    match extractUser m.size m.data with
    | .panicOOB => ⟨s, [], .panicked⟩
    | .badUtf8 => ⟨s, [], .err .decodeError⟩
    | .okLabel lbl =>
      ⟨⟨insertA m.client_id ⟨-1, none, lbl⟩ s.clients, s.next⟩, [], .ok⟩
  | .channelUnsubscribe =>
    match lookupA m.client_id s.clients with
    | none => ⟨s, [], .ok⟩
    | some cd =>
      ⟨⟨removeA m.client_id s.clients, s.next⟩, unsubscribe_client cd, .ok⟩
  | .channelUnsubscribeAll =>
    ⟨⟨[], s.next⟩,
     catMap (fun kv =>
       .writeMsg .channelUnsubscribe kv.1 [] :: unsubscribe_client kv.2)
       s.clients, .ok⟩
  | .channelData =>
    match lookupA m.client_id s.clients with
    | none => ⟨s, [], .ok⟩
    | some cd =>
      match cd.child with
      | none =>
        if w.spawnOk then
          ⟨⟨insertA m.client_id ⟨(s.next : Int), some s.next, cd.user⟩
              s.clients, s.next + 1⟩,
           [.spawnEnv s.next cd.user (decimalAscii m.client_id) true true,
            .register_io (s.next : Int), .writeStdin s.next m.data], .ok⟩
        else ⟨s, [], .err .spawnError⟩
      | some pid => ⟨s, [.writeStdin pid m.data], .ok⟩
  | .other => ⟨s, [], .ok⟩

/-- Readiness-handling phase of `step_handle` (`shp2p.rs` lines 147-161):
entries whose `fd` field equals the notified descriptor and that hold a
child are drained with a read bounded to 2048 bytes. -/
def readPhase (fd : Int) (w : World) (s : PState) : List Effect :=
  catMap (fun kv =>
    if kv.2.fd = fd then
      match kv.2.child with
      | some pid =>
        [.readStdout pid ((w.readData pid).take 2048).length,
         .writeMsg .channelData kv.1 ((w.readData pid).take 2048)]
      | none => []
    else []) s.clients

/-- One full dispatcher step of the identity-aware policy (`step_handle`,
`shp2p.rs` lines 46-163). -/
def step_handle (evt : CallbackEvent) (w : World) (s : PState) :
    StepRes PState :=
  let r1 : StepRes PState :=
    match evt.msg with
    | none => ⟨s, [], .ok⟩
    | some m => msgPhase m w s
  match r1.out with
  | .ok =>
    let mon := monitor_clients w r1.st
    match evt.event, evt.fd with
    | some readable, some fd =>
      if readable then
        ⟨mon.1, r1.tr ++ mon.2 ++ readPhase fd w mon.1, .ok⟩
      else ⟨mon.1, r1.tr ++ mon.2, .ok⟩
    | _, _ => ⟨mon.1, r1.tr ++ mon.2, .ok⟩
  | _ => r1

/-- The step loop of `main` (`shp2p.rs` lines 226-231). -/
def run : List (CallbackEvent × World) → PState → PState × List Effect
  | [], s => (s, [])
  | ew :: rest, s =>
    let r := step_handle ew.1 ew.2 s
    match r.out with
    | .ok =>
      let q := run rest r.st
      (q.1, r.tr ++ q.2)
    | _ => (r.st, r.tr)

/-- Initial dispatcher state: empty client map. -/
def init : PState := ⟨[], 0⟩

end P2p

namespace Bcast

/-- Dispatcher state of the shared broadcast policy (`shbcast.rs`):
the `HashMap<u16, String>` of subscribed clients with their labels; the
single shared process is spawned in `main` before the loop and passed to
every step, so it is a parameter of `step_handle`, not part of this
state. -/
structure BState where
  clients : List (Nat × List Nat)
deriving DecidableEq, Repr

/-- One full dispatcher step of the shared policy (`step_handle`,
`shbcast.rs` lines 17-85): message handling (no per-client processes, no
liveness monitor), then readiness handling, which performs a single read
of at most 2048 bytes on the shared process's stdout and fans it out as
one Data message per subscribed client. -/
def step_handle (evt : CallbackEvent) (w : World) (procPid : Nat)
    (s : BState) : StepRes BState :=
  let r1 : StepRes BState :=
    match evt.msg with
    | none => ⟨s, [], .ok⟩
    | some m =>
      match m.kind with
      | .channelSubscribe =>
        match extractUser m.size m.data with
        | .panicOOB => ⟨s, [], .panicked⟩
        | .badUtf8 => ⟨s, [], .err .decodeError⟩
        | .okLabel lbl =>
          ⟨⟨insertA m.client_id lbl s.clients⟩, [], .ok⟩
      | .channelUnsubscribe => ⟨⟨removeA m.client_id s.clients⟩, [], .ok⟩
      | .channelUnsubscribeAll =>
        ⟨⟨[]⟩,
         s.clients.map (fun kv => .writeMsg .channelUnsubscribe kv.1 []),
         .ok⟩
      | .channelData => ⟨s, [.writeStdin procPid m.data], .ok⟩
      | .other => ⟨s, [], .ok⟩
  match r1.out with
  | .ok =>
    match evt.event, evt.fd with
    | some readable, some _ =>
      if readable then
        ⟨r1.st,
         r1.tr ++
           (.readStdout procPid ((w.readData procPid).take 2048).length ::
            r1.st.clients.map
              (fun kv =>
                .writeMsg .channelData kv.1 ((w.readData procPid).take 2048))),
         .ok⟩
      else ⟨r1.st, r1.tr, .ok⟩
    | _, _ => ⟨r1.st, r1.tr, .ok⟩
  | _ => r1

end Bcast

/-- Number of `unregister_io f` effects in a trace. -/
def unregCount (f : Int) (tr : List Effect) : Nat :=
  tr.countP (fun e => decide (e = Effect.unregister_io f))

/-- Effect classifiers used to state ordering properties. A spawn is a
process launch of either policy (with or without an environment). -/
def isSpawn : Effect → Bool
  | .spawn _ => true
  | .spawnEnv _ _ _ _ _ => true
  | _ => false

def isKill : Effect → Bool
  | .kill _ => true
  | _ => false

def isUnreg : Effect → Bool
  | .unregister_io _ => true
  | _ => false

def isRead : Effect → Bool
  | .readStdout _ _ => true
  | _ => false

/-- Some effect satisfying `p` occurs strictly before some effect
satisfying `q` in the trace. -/
abbrev precedes (p q : Effect → Bool) (tr : List Effect) : Prop :=
  ∃ i j : Fin tr.length, (i : Nat) < (j : Nat) ∧ p (tr.get i) ∧ q (tr.get j)

/-- Two registry entries of the exclusive policy never share a live
descriptor (pairwise over list positions). -/
def Rfd (a b : Nat × Option Excl.ClientData) : Prop :=
  ∀ cda cdb, a.2 = some cda → b.2 = some cdb → cda.fd ≠ cdb.fd

/-- Two registry entries of the identity-aware policy never share a live
descriptor (pairwise over list positions). -/
def RfdP (a b : Nat × P2p.ClientData) : Prop :=
  ∀ pa pb : Nat, a.2.child = some pa → b.2.child = some pb →
    a.2.fd ≠ b.2.fd

/-- Inductive invariant of the exclusive policy relating the dispatcher
state to the accumulated effect trace: every live descriptor is a past
spawn-counter value never yet unregistered, descriptors at or above the
counter are untouched, no descriptor is unregistered twice, and live
descriptors are pairwise distinct. -/
structure MInv (s : Excl.MState) (tr : List Effect) : Prop where
  bLt : ∀ kv ∈ s.clients, ∀ cd : Excl.ClientData, kv.2 = some cd →
    ∃ n : Nat, cd.fd = (n : Int) ∧ n < s.next
  bZero : ∀ kv ∈ s.clients, ∀ cd : Excl.ClientData, kv.2 = some cd →
    unregCount cd.fd tr = 0
  fresh : ∀ n : Nat, s.next ≤ n → unregCount ((n : Nat) : Int) tr = 0
  once : ∀ f, unregCount f tr ≤ 1
  dis : s.clients.Pairwise Rfd

/-- The Subscribe → Data → Unsubscribe scenario of the testable property
in the spec, for one client id, in a benign environment. -/
def c3events (id : Nat) (payload : List Nat) :
    List (CallbackEvent × World) :=
  [(⟨some ⟨.channelSubscribe, id, 1, [0]⟩, none, none⟩, w0),
   (⟨some ⟨.channelData, id, payload.length, payload⟩, none, none⟩, w0),
   (⟨some ⟨.channelUnsubscribe, id, 0, []⟩, none, none⟩, w0)]

/-- The Subscribe → Data → Unsubscribe scenario for the identity-aware
policy: the Subscribe payload is the one-byte label `a` plus a
terminator, as that policy's Subscribe handler requires. -/
def c3eventsP (id : Nat) (payload : List Nat) :
    List (CallbackEvent × World) :=
  [(⟨some ⟨.channelSubscribe, id, 2, [97, 0]⟩, none, none⟩, w0),
   (⟨some ⟨.channelData, id, payload.length, payload⟩, none, none⟩, w0),
   (⟨some ⟨.channelUnsubscribe, id, 0, []⟩, none, none⟩, w0)]

/-- Subscribe, Data (spawns), Subscribe again (overwrites the live
binding), Unsubscribe: the scenario probing teardown on re-subscribe. -/
def c1events : List (CallbackEvent × World) :=
  [(⟨some ⟨.channelSubscribe, 1, 1, [0]⟩, none, none⟩, w0),
   (⟨some ⟨.channelData, 1, 1, [9]⟩, none, none⟩, w0),
   (⟨some ⟨.channelSubscribe, 1, 1, [0]⟩, none, none⟩, w0),
   (⟨some ⟨.channelUnsubscribe, 1, 0, []⟩, none, none⟩, w0)]

/-- A world in which only pid 9 has exited (status 0). -/
def wExit9 : World := ⟨true, fun p => if p = 9 then some 0 else none,
  fun _ => []⟩

/-- A world in which pid 0's stdout holds three bytes. -/
def wRead3 : World := ⟨true, fun _ => none,
  fun p => if p = 0 then [10, 20, 30] else []⟩

theorem countP_catMap_zero {α : Type} {p : Effect → Bool}
    {g : α → List Effect} :
    ∀ {l : List α}, (∀ a ∈ l, (g a).countP p = 0) →
      (catMap g l).countP p = 0 := by
  intro l
  induction l with
  | nil => intro _; rfl
  | cons a t ih =>
    intro h
    show ((g a) ++ catMap g t).countP p = 0
    rw [List.countP_append, h a (List.mem_cons_self a t),
      ih (fun b hb => h b (List.mem_cons_of_mem a hb))]

theorem countP_catMap_pos {α : Type} {p : Effect → Bool}
    {g : α → List Effect} :
    ∀ {l : List α}, (catMap g l).countP p ≠ 0 →
      ∃ a ∈ l, (g a).countP p ≠ 0 := by
  intro l
  induction l with
  | nil => intro h; exact absurd rfl h
  | cons a t ih =>
    intro h
    rw [show catMap g (a :: t) = g a ++ catMap g t from rfl,
      List.countP_append] at h
    by_cases ha : (g a).countP p = 0
    · rw [ha] at h
      obtain ⟨b, hb, hb0⟩ := ih (by omega)
      exact ⟨b, List.mem_cons_of_mem a hb, hb0⟩
    · exact ⟨a, List.mem_cons_self a t, ha⟩

theorem countP_catMap_le_one {α : Type} {p : Effect → Bool}
    {g : α → List Effect} :
    ∀ {l : List α},
      l.Pairwise (fun a b => (g a).countP p = 0 ∨ (g b).countP p = 0) →
      (∀ a ∈ l, (g a).countP p ≤ 1) → (catMap g l).countP p ≤ 1 := by
  intro l
  induction l with
  | nil => intro _ _; exact Nat.le_succ 0
  | cons a t ih =>
    intro hp hle
    rw [List.pairwise_cons] at hp
    show ((g a) ++ catMap g t).countP p ≤ 1
    rw [List.countP_append]
    by_cases hz : (g a).countP p = 0
    · rw [hz]
      have := ih hp.2 (fun b hb => hle b (List.mem_cons_of_mem a hb))
      omega
    · have h0 : ∀ b ∈ t, (g b).countP p = 0 :=
        fun b hb => (hp.1 b hb).resolve_left hz
      rw [countP_catMap_zero h0]
      have := hle a (List.mem_cons_self a t)
      omega

theorem countP_catMap_eq_one {α : Type} {p : Effect → Bool}
    {g : α → List Effect} :
    ∀ {l : List α} {a : α},
      l.Pairwise (fun x y => (g x).countP p = 0 ∨ (g y).countP p = 0) →
      a ∈ l → (g a).countP p = 1 → (catMap g l).countP p = 1 := by
  intro l
  induction l with
  | nil => intro a _ ha; cases ha
  | cons h t ih =>
    intro a hp hmem hone
    rw [List.pairwise_cons] at hp
    show ((g h) ++ catMap g t).countP p = 1
    rw [List.countP_append]
    rcases List.mem_cons.1 hmem with rfl | hat
    · rw [hone, countP_catMap_zero
        (fun b hb => (hp.1 b hb).resolve_left (by rw [hone]; omega))]
    · rw [ih hp.2 hat hone,
        (hp.1 a hat).resolve_right (by rw [hone]; omega)]

theorem mem_catMap_of {α : Type} {g : α → List Effect} {x : Effect}
    {a : α} : ∀ {l : List α}, a ∈ l → x ∈ g a → x ∈ catMap g l := by
  intro l
  induction l with
  | nil => intro ha; cases ha
  | cons h t ih =>
    intro ha hx
    show x ∈ (g h) ++ catMap g t
    rcases List.mem_cons.1 ha with rfl | hat
    · exact List.mem_append_left _ hx
    · exact List.mem_append_right _ (ih hat hx)

theorem mem_catMap {α : Type} {g : α → List Effect} {x : Effect} :
    ∀ {l : List α}, x ∈ catMap g l → ∃ a ∈ l, x ∈ g a := by
  intro l
  induction l with
  | nil => intro hx; cases hx
  | cons h t ih =>
    intro hx
    rcases List.mem_append.1 hx with hh | ht
    · exact ⟨h, List.mem_cons_self h t, hh⟩
    · obtain ⟨a, ha, hga⟩ := ih ht
      exact ⟨a, List.mem_cons_of_mem h ha, hga⟩

theorem mem_insertA {β : Type} {kv : Nat × β} {k : Nat} {v : β} :
    ∀ {l : List (Nat × β)}, kv ∈ insertA k v l → kv ∈ l ∨ kv = (k, v) := by
  intro l
  induction l with
  | nil => intro h; right; simpa [insertA] using h
  | cons h t ih =>
    intro hm
    by_cases hk : h.1 = k
    · rw [show insertA k v (h :: t) = (k, v) :: t by
        simp [insertA, hk]] at hm
      rcases List.mem_cons.1 hm with rfl | hmt
      · right; rfl
      · left; exact List.mem_cons_of_mem h hmt
    · rw [show insertA k v (h :: t) = h :: insertA k v t by
        simp [insertA, hk]] at hm
      rcases List.mem_cons.1 hm with rfl | hmt
      · left; exact List.mem_cons_self _ t
      · rcases ih hmt with hl | hr
        · left; exact List.mem_cons_of_mem h hl
        · right; exact hr

theorem mem_removeA {β : Type} {kv : Nat × β} {k : Nat} :
    ∀ {l : List (Nat × β)}, kv ∈ removeA k l → kv ∈ l := by
  intro l
  induction l with
  | nil => intro h; cases h
  | cons h t ih =>
    intro hm
    by_cases hk : h.1 = k
    · rw [show removeA k (h :: t) = t by simp [removeA, hk]] at hm
      exact List.mem_cons_of_mem h hm
    · rw [show removeA k (h :: t) = h :: removeA k t by
        simp [removeA, hk]] at hm
      rcases List.mem_cons.1 hm with rfl | hmt
      · exact List.mem_cons_self _ t
      · exact List.mem_cons_of_mem h (ih hmt)

theorem lookupA_mem {β : Type} {k : Nat} {v : β} :
    ∀ {l : List (Nat × β)}, lookupA k l = some v → (k, v) ∈ l := by
  intro l
  induction l with
  | nil => intro h; cases h
  | cons h t ih =>
    intro hl
    by_cases hk : h.1 = k
    · rw [show lookupA k (h :: t) = some h.2 by simp [lookupA, hk]] at hl
      have : (k, v) = h := by
        obtain ⟨h1, h2⟩ := h
        simp only [Option.some.injEq] at hl
        simp [← hk, ← hl]
      rw [this]; exact List.mem_cons_self _ t
    · rw [show lookupA k (h :: t) = lookupA k t by simp [lookupA, hk]] at hl
      exact List.mem_cons_of_mem h (ih hl)

theorem lookupA_insertA_self {β : Type} (k : Nat) (v : β) :
    ∀ (l : List (Nat × β)), lookupA k (insertA k v l) = some v := by
  intro l
  induction l with
  | nil => simp [insertA, lookupA]
  | cons h t ih =>
    by_cases hk : h.1 = k
    · simp [insertA, hk, lookupA]
    · rw [show insertA k v (h :: t) = h :: insertA k v t by
        simp [insertA, hk]]
      simp [lookupA, hk, ih]

theorem lookupA_map_val {β γ : Type} (g : β → γ) (k : Nat) :
    ∀ (l : List (Nat × β)),
      lookupA k (l.map (fun kv => (kv.1, g kv.2))) =
        (lookupA k l).map g := by
  intro l
  induction l with
  | nil => rfl
  | cons h t ih =>
    by_cases hk : h.1 = k
    · simp [lookupA, hk]
    · simp [lookupA, hk, ih]

theorem pairwise_insertA {β : Type} {R : Nat × β → Nat × β → Prop}
    {k : Nat} {v : β} :
    ∀ {l : List (Nat × β)}, l.Pairwise R → (∀ b ∈ l, R (k, v) b) →
      (∀ a ∈ l, R a (k, v)) → (insertA k v l).Pairwise R := by
  intro l
  induction l with
  | nil => intro _ _ _; simp [insertA, List.pairwise_singleton]
  | cons h t ih =>
    intro hp hv hv'
    rw [List.pairwise_cons] at hp
    by_cases hk : h.1 = k
    · rw [show insertA k v (h :: t) = (k, v) :: t by simp [insertA, hk]]
      exact List.pairwise_cons.2
        ⟨fun b hb => hv b (List.mem_cons_of_mem h hb), hp.2⟩
    · rw [show insertA k v (h :: t) = h :: insertA k v t by
        simp [insertA, hk]]
      refine List.pairwise_cons.2
        ⟨?_, ih hp.2 (fun b hb => hv b (List.mem_cons_of_mem h hb))
          (fun a ha => hv' a (List.mem_cons_of_mem h ha))⟩
      intro b hb
      rcases mem_insertA hb with hbt | rfl
      · exact hp.1 b hbt
      · exact hv' h (List.mem_cons_self h t)

theorem unregCount_nil (f : Int) : unregCount f [] = 0 := rfl

theorem unregCount_append (f : Int) (t1 t2 : List Effect) :
    unregCount f (t1 ++ t2) = unregCount f t1 + unregCount f t2 := by
  simp [unregCount, List.countP_append]

theorem unregCount_catMap_zero {α : Type} {f : Int} {g : α → List Effect}
    {l : List α} (h : ∀ a ∈ l, unregCount f (g a) = 0) :
    unregCount f (catMap g l) = 0 :=
  countP_catMap_zero h

theorem unregCount_catMap_pos {α : Type} {f : Int} {g : α → List Effect}
    {l : List α} (h : unregCount f (catMap g l) ≠ 0) :
    ∃ a ∈ l, unregCount f (g a) ≠ 0 :=
  countP_catMap_pos h

theorem unregCount_catMap_le_one {α : Type} {f : Int} {g : α → List Effect}
    {l : List α}
    (hp : l.Pairwise (fun a b =>
      unregCount f (g a) = 0 ∨ unregCount f (g b) = 0))
    (hle : ∀ a ∈ l, unregCount f (g a) ≤ 1) :
    unregCount f (catMap g l) ≤ 1 :=
  countP_catMap_le_one hp hle

theorem unregCount_catMap_eq_one {α : Type} {f : Int} {g : α → List Effect}
    {l : List α} {a : α}
    (hp : l.Pairwise (fun x y =>
      unregCount f (g x) = 0 ∨ unregCount f (g y) = 0))
    (ha : a ∈ l) (h1 : unregCount f (g a) = 1) :
    unregCount f (catMap g l) = 1 :=
  countP_catMap_eq_one hp ha h1

/-- Appending a trace with no unregister effects preserves the invariant. -/
theorem MInv.append_zero {s : Excl.MState} {tr tr2 : List Effect}
    (h : MInv s tr) (h2 : ∀ f, unregCount f tr2 = 0) :
    MInv s (tr ++ tr2) where
  bLt := h.bLt
  bZero := fun kv hkv cd hcd => by
    rw [unregCount_append, h.bZero kv hkv cd hcd, h2]
  fresh := fun n hn => by rw [unregCount_append, h.fresh n hn, h2]
  once := fun f => by rw [unregCount_append, h2]; have := h.once f; omega
  dis := h.dis

theorem natCast_ne_of_ne {m n : Nat} (h : m ≠ n) : (m : Int) ≠ (n : Int) := by
  exact_mod_cast h

theorem pairwise_removeA {β : Type} {R : Nat × β → Nat × β → Prop}
    {k : Nat} :
    ∀ {l : List (Nat × β)}, l.Pairwise R → (removeA k l).Pairwise R := by
  intro l
  induction l with
  | nil => intro _; exact List.Pairwise.nil
  | cons h t ih =>
    intro hp
    rw [List.pairwise_cons] at hp
    by_cases hk : h.1 = k
    · rw [show removeA k (h :: t) = t by simp [removeA, hk]]
      exact hp.2
    · rw [show removeA k (h :: t) = h :: removeA k t by simp [removeA, hk]]
      exact List.pairwise_cons.2
        ⟨fun b hb => hp.1 b (mem_removeA hb), ih hp.2⟩

namespace Excl

theorem unsub_count_none (f : Int) :
    unregCount f (unsubscribe_client none) = 0 := rfl

theorem unsub_count_some (f : Int) (cd : ClientData) :
    unregCount f (unsubscribe_client (some cd)) =
      if cd.fd = f then 1 else 0 := by
  simp only [unsubscribe_client, unregCount, List.countP_cons,
    List.countP_nil]
  by_cases h : cd.fd = f <;> simp [h]

theorem unsub_count_le_one (f : Int) (v : Option ClientData) :
    unregCount f (unsubscribe_client v) ≤ 1 := by
  cases v with
  | none => rw [unsub_count_none]; omega
  | some cd => rw [unsub_count_some]; split <;> omega

theorem unsub_count_zero_of_ne (f : Int) (v : Option ClientData)
    (h : ∀ cd : ClientData, v = some cd → cd.fd ≠ f) :
    unregCount f (unsubscribe_client v) = 0 := by
  cases v with
  | none => rfl
  | some cd => rw [unsub_count_some, if_neg (h cd rfl)]

theorem unsub_count_pos (f : Int) (v : Option ClientData)
    (h : unregCount f (unsubscribe_client v) ≠ 0) :
    ∃ cd : ClientData, v = some cd ∧ cd.fd = f := by
  cases v with
  | none => exact absurd rfl h
  | some cd =>
    rw [unsub_count_some] at h
    refine ⟨cd, rfl, ?_⟩
    by_contra hne
    rw [if_neg hne] at h
    exact h rfl

theorem usub_chunk_count (f : Int) (kv : Nat × Option ClientData) :
    unregCount f
      (.writeMsg .channelUnsubscribe kv.1 [] :: unsubscribe_client kv.2) =
      unregCount f (unsubscribe_client kv.2) := by
  simp [unregCount, List.countP_cons]

theorem monTr_count_some_exited (w : World) (f : Int) (cd : ClientData)
    (st : Nat) (h : w.exited cd.pid = some st) :
    unregCount f (monTr w (some cd)) = if cd.fd = f then 1 else 0 := by
  simp only [monTr, h, unregCount, List.countP_cons, List.countP_nil]
  by_cases hf : cd.fd = f <;> simp [hf]

theorem monTr_count_le_one (w : World) (f : Int) (v : Option ClientData) :
    unregCount f (monTr w v) ≤ 1 := by
  cases v with
  | none => exact Nat.le_succ 0
  | some cd =>
    cases hx : w.exited cd.pid with
    | none => simp [monTr, hx, unregCount]
    | some st => rw [monTr_count_some_exited w f cd st hx]; split <;> omega

theorem monTr_count_zero_of_ne (w : World) (f : Int) (v : Option ClientData)
    (h : ∀ cd : ClientData, v = some cd → cd.fd ≠ f) :
    unregCount f (monTr w v) = 0 := by
  cases v with
  | none => rfl
  | some cd =>
    cases hx : w.exited cd.pid with
    | none => simp [monTr, hx, unregCount]
    | some st =>
      rw [monTr_count_some_exited w f cd st hx, if_neg (h cd rfl)]

theorem monTr_count_zero_of_alive (w : World) (f : Int) (cd : ClientData)
    (h : w.exited cd.pid = none) :
    unregCount f (monTr w (some cd)) = 0 := by
  simp [monTr, h, unregCount]

theorem monTr_count_pos (w : World) (f : Int) (v : Option ClientData)
    (h : unregCount f (monTr w v) ≠ 0) :
    ∃ cd : ClientData, v = some cd ∧ cd.fd = f := by
  cases v with
  | none => exact absurd rfl h
  | some cd =>
    refine ⟨cd, rfl, ?_⟩
    cases hx : w.exited cd.pid with
    | none => exact absurd (monTr_count_zero_of_alive w f cd hx) h
    | some st =>
      rw [monTr_count_some_exited w f cd st hx] at h
      by_contra hne
      rw [if_neg hne] at h
      exact h rfl

theorem read_chunk_count (fd : Int) (w : World) (f : Int)
    (kv : Nat × Option ClientData) :
    unregCount f
      (match kv.2 with
       | some cd =>
         if cd.fd = fd then
           [.readStdout cd.pid ((w.readData cd.pid).take 2048).length,
            .writeMsg .channelData kv.1 ((w.readData cd.pid).take 2048)]
         else []
       | none => []) = 0 := by
  rcases kv with ⟨k, v⟩
  cases v with
  | none => rfl
  | some cd =>
    by_cases h : cd.fd = fd <;> simp [h, unregCount, List.countP_cons]

theorem read_count_zero (fd : Int) (w : World) (s : MState) (f : Int) :
    unregCount f (readPhase fd w s) = 0 :=
  countP_catMap_zero (fun kv _ => read_chunk_count fd w f kv)

/-- The descriptor of a removed bound entry differs from every live
descriptor remaining after the removal. -/
theorem removeA_fd_ne {k : Nat} {cd : ClientData} :
    ∀ {l : List (Nat × Option ClientData)}, l.Pairwise Rfd →
      lookupA k l = some (some cd) →
      ∀ kv ∈ removeA k l, ∀ cd' : ClientData, kv.2 = some cd' →
        cd'.fd ≠ cd.fd := by
  intro l
  induction l with
  | nil => intro _ hl; cases hl
  | cons h t ih =>
    intro hp hl kv hkv cd' hcd'
    rw [List.pairwise_cons] at hp
    by_cases hk : h.1 = k
    · rw [show lookupA k (h :: t) = some h.2 by simp [lookupA, hk]] at hl
      rw [show removeA k (h :: t) = t by simp [removeA, hk]] at hkv
      have h2 : h.2 = some cd := by simpa using hl
      exact fun he => hp.1 kv hkv cd cd' h2 hcd' he.symm
    · rw [show lookupA k (h :: t) = lookupA k t by simp [lookupA, hk]] at hl
      rw [show removeA k (h :: t) = h :: removeA k t by
        simp [removeA, hk]] at hkv
      rcases List.mem_cons.1 hkv with rfl | hkt
      · exact hp.1 (k, some cd) (lookupA_mem hl) cd' cd hcd' rfl
      · exact ih hp.2 hl kv hkt cd' hcd'

theorem monVal_some {w : World} {v : Option ClientData} {cd : ClientData}
    (h : monVal w v = some cd) : v = some cd ∧ w.exited cd.pid = none := by
  cases v with
  | none => cases h
  | some cd0 =>
    cases hx : w.exited cd0.pid with
    | some st => simp [monVal, hx] at h
    | none =>
      simp only [monVal, hx] at h
      cases h
      exact ⟨rfl, hx⟩

/-- A live entry whose process has not exited contributes no unregister
for its descriptor, and neither does any other entry, in one monitor
pass. -/
theorem mon_survivor_zero {w : World} {cd : ClientData} :
    ∀ {l : List (Nat × Option ClientData)}, l.Pairwise Rfd →
      ∀ kv ∈ l, kv.2 = some cd → w.exited cd.pid = none →
      unregCount cd.fd (catMap (fun kv' => monTr w kv'.2) l) = 0 := by
  intro l
  induction l with
  | nil => intro _ kv hkv; cases hkv
  | cons h t ih =>
    intro hp kv hkv hcd hal
    rw [List.pairwise_cons] at hp
    show unregCount cd.fd
      (monTr w h.2 ++ catMap (fun kv' => monTr w kv'.2) t) = 0
    rw [unregCount_append]
    rcases List.mem_cons.1 hkv with rfl | hkt
    · have h1 : unregCount cd.fd (monTr w kv.2) = 0 := by
        rw [hcd]; exact monTr_count_zero_of_alive w _ cd hal
      have h2 : unregCount cd.fd
          (catMap (fun kv' => monTr w kv'.2) t) = 0 :=
        countP_catMap_zero (fun b hb =>
          monTr_count_zero_of_ne w _ b.2 (fun cd'' hcd'' heq =>
            hp.1 b hb cd cd'' hcd hcd'' heq.symm))
      rw [h1, h2]
    · have h1 : unregCount cd.fd (monTr w h.2) = 0 :=
        monTr_count_zero_of_ne w _ h.2 (fun cd'' hcd'' =>
          hp.1 kv hkt cd'' cd hcd'' hcd)
      rw [h1, ih hp.2 kv hkt hcd hal]

/-- `monitor_clients` preserves the trace invariant. -/
theorem mon_inv (w : World) {s : MState} {tr : List Effect}
    (h : MInv s tr) :
    MInv ⟨s.clients.map (fun kv => (kv.1, monVal w kv.2)), s.next⟩
      (tr ++ catMap (fun kv => monTr w kv.2) s.clients) := by
  constructor
  · intro kv hkv cd hcd
    obtain ⟨kv0, hkv0, rfl⟩ := List.mem_map.1 hkv
    obtain ⟨hv, _⟩ := monVal_some hcd
    exact h.bLt kv0 hkv0 cd hv
  · intro kv hkv cd hcd
    obtain ⟨kv0, hkv0, rfl⟩ := List.mem_map.1 hkv
    obtain ⟨hv, hal⟩ := monVal_some hcd
    rw [unregCount_append, h.bZero kv0 hkv0 cd hv,
      mon_survivor_zero h.dis kv0 hkv0 hv hal]
  · intro n hn
    have hn' : s.next ≤ n := hn
    rw [unregCount_append, h.fresh n hn',
      unregCount_catMap_zero (fun b hb =>
        monTr_count_zero_of_ne w _ b.2 (fun cd'' hcd'' => by
          obtain ⟨m, hm, hlt⟩ := h.bLt b hb cd'' hcd''
          rw [hm]
          exact natCast_ne_of_ne (by omega)))]
  · intro f
    rw [unregCount_append]
    by_cases hz :
        unregCount f (catMap (fun kv => monTr w kv.2) s.clients) = 0
    · rw [hz]; have := h.once f; omega
    · obtain ⟨a, ha, hca⟩ := unregCount_catMap_pos hz
      obtain ⟨cda, hva, hfa⟩ := monTr_count_pos w f a.2 hca
      have htr0 : unregCount f tr = 0 := hfa ▸ h.bZero a ha cda hva
      have hle : unregCount f
          (catMap (fun kv => monTr w kv.2) s.clients) ≤ 1 := by
        refine unregCount_catMap_le_one
          (h.dis.imp ?_) (fun b _ => monTr_count_le_one w f b.2)
        intro x y hr
        by_cases h1 : unregCount f (monTr w x.2) = 0
        · exact Or.inl h1
        · obtain ⟨cd1, hv1, hf1⟩ := monTr_count_pos w f x.2 h1
          refine Or.inr (monTr_count_zero_of_ne w _ y.2 ?_)
          intro cd2 hv2 heq2
          exact hr cd1 cd2 hv1 hv2 (by rw [hf1, heq2])
      omega
  · refine List.pairwise_map.2 (h.dis.imp ?_)
    intro a b hr cda cdb h1 h2
    exact hr cda cdb (monVal_some h1).1 (monVal_some h2).1

/-- The message-handling phase preserves the trace invariant. -/
theorem msg_inv (m : Msg) (w : World) {s : MState} {tr : List Effect}
    (h : MInv s tr) :
    MInv (msgPhase m w s).st (tr ++ (msgPhase m w s).tr) := by
  rcases m with ⟨mk, mid, msz, mdata⟩
  cases mk with
  | channelSubscribe =>
    show MInv ⟨insertA mid none s.clients, s.next⟩ (tr ++ [])
    rw [List.append_nil]
    refine ⟨?_, ?_, h.fresh, h.once, ?_⟩
    · intro kv hkv cd hcd
      rcases mem_insertA hkv with hm | rfl
      · exact h.bLt kv hm cd hcd
      · simp at hcd
    · intro kv hkv cd hcd
      rcases mem_insertA hkv with hm | rfl
      · exact h.bZero kv hm cd hcd
      · simp at hcd
    · refine pairwise_insertA h.dis ?_ ?_
      · intro b _ cda cdb h1 _; simp at h1
      · intro a _ cda cdb _ h2; simp at h2
  | channelUnsubscribe =>
    simp only [msgPhase]
    cases hl : lookupA mid s.clients with
    | none =>
      show MInv s (tr ++ [])
      rw [List.append_nil]; exact h
    | some opt =>
      cases opt with
      | none =>
        show MInv ⟨removeA mid s.clients, s.next⟩ (tr ++ [])
        rw [List.append_nil]
        exact ⟨fun kv hkv cd hcd => h.bLt kv (mem_removeA hkv) cd hcd,
          fun kv hkv cd hcd => h.bZero kv (mem_removeA hkv) cd hcd,
          h.fresh, h.once, pairwise_removeA h.dis⟩
      | some cd =>
        show MInv ⟨removeA mid s.clients, s.next⟩
          (tr ++ unsubscribe_client (some cd))
        have hmem := lookupA_mem hl
        obtain ⟨n0, hfd, hlt⟩ := h.bLt _ hmem cd rfl
        have hz0 := h.bZero _ hmem cd rfl
        constructor
        · intro kv hkv cd' hcd'
          exact h.bLt kv (mem_removeA hkv) cd' hcd'
        · intro kv hkv cd' hcd'
          rw [unregCount_append, h.bZero kv (mem_removeA hkv) cd' hcd',
            unsub_count_some,
            if_neg (fun he : cd.fd = cd'.fd =>
              removeA_fd_ne h.dis hl kv hkv cd' hcd' he.symm)]
        · intro n hn
          have hn' : s.next ≤ n := hn
          rw [unregCount_append, h.fresh n hn', unsub_count_some,
            if_neg (by rw [hfd]; exact natCast_ne_of_ne (by omega))]
        · intro f
          rw [unregCount_append]
          by_cases hf : cd.fd = f
          · rw [unsub_count_some, if_pos hf, ← hf, hz0]
          · rw [unsub_count_some, if_neg hf]
            have := h.once f; omega
        · exact pairwise_removeA h.dis
  | channelUnsubscribeAll =>
    show MInv ⟨[], s.next⟩
      (tr ++ catMap (fun kv =>
        .writeMsg .channelUnsubscribe kv.1 [] :: unsubscribe_client kv.2)
        s.clients)
    constructor
    · intro kv hkv; simp at hkv
    · intro kv hkv; simp at hkv
    · intro n hn
      have hn' : s.next ≤ n := hn
      rw [unregCount_append, h.fresh n hn',
        unregCount_catMap_zero (fun b hb =>
          (usub_chunk_count _ b).trans
            (unsub_count_zero_of_ne _ b.2 (fun cd'' hcd'' => by
              obtain ⟨m, hm, hlt⟩ := h.bLt b hb cd'' hcd''
              rw [hm]
              exact natCast_ne_of_ne (by omega))))]
    · intro f
      rw [unregCount_append]
      by_cases hz : unregCount f
          (catMap (fun kv =>
            .writeMsg .channelUnsubscribe kv.1 [] ::
              unsubscribe_client kv.2) s.clients) = 0
      · rw [hz]; have := h.once f; omega
      · obtain ⟨a, ha, hca⟩ := unregCount_catMap_pos hz
        rw [usub_chunk_count] at hca
        obtain ⟨cda, hva, hfa⟩ := unsub_count_pos f a.2 hca
        have htr0 : unregCount f tr = 0 := hfa ▸ h.bZero a ha cda hva
        have hle : unregCount f
            (catMap (fun kv =>
              .writeMsg .channelUnsubscribe kv.1 [] ::
                unsubscribe_client kv.2) s.clients) ≤ 1 := by
          refine unregCount_catMap_le_one (h.dis.imp ?_)
            (fun b _ => (usub_chunk_count _ b).trans_le
              (unsub_count_le_one f b.2))
          intro x y hr
          by_cases h1 : unregCount f
              (.writeMsg .channelUnsubscribe x.1 [] ::
                unsubscribe_client x.2) = 0
          · exact Or.inl h1
          · rw [usub_chunk_count] at h1
            obtain ⟨cd1, hv1, hf1⟩ := unsub_count_pos f x.2 h1
            refine Or.inr ((usub_chunk_count _ y).trans
              (unsub_count_zero_of_ne _ y.2 ?_))
            intro cd2 hv2 heq2
            exact hr cd1 cd2 hv1 hv2 (by rw [hf1, heq2])
        omega
    · exact List.Pairwise.nil
  | channelData =>
    simp only [msgPhase]
    cases hl : lookupA mid s.clients with
    | none =>
      show MInv s (tr ++ [])
      rw [List.append_nil]; exact h
    | some opt =>
      cases opt with
      | none =>
        cases hw : w.spawnOk with
        | false =>
          show MInv s (tr ++ [])
          rw [List.append_nil]; exact h
        | true =>
          show MInv
            ⟨insertA mid (some ⟨(s.next : Int), s.next⟩) s.clients,
              s.next + 1⟩
            (tr ++ [.spawn s.next, .register_io (s.next : Int),
              .writeStdin s.next mdata])
          have hch : ∀ f, unregCount f
              [.spawn s.next, .register_io (s.next : Int),
               .writeStdin s.next mdata] = 0 := by
            intro f; simp [unregCount, List.countP_cons]
          constructor
          · intro kv hkv cd hcd
            rcases mem_insertA hkv with hm | rfl
            · obtain ⟨n0, hfd0, hlt0⟩ := h.bLt kv hm cd hcd
              refine ⟨n0, hfd0, ?_⟩
              show n0 < s.next + 1
              omega
            · simp only [Option.some.injEq] at hcd
              refine ⟨s.next, by rw [← hcd], ?_⟩
              show s.next < s.next + 1
              omega
          · intro kv hkv cd hcd
            rw [unregCount_append, hch]
            rcases mem_insertA hkv with hm | rfl
            · rw [h.bZero kv hm cd hcd]
            · simp only [Option.some.injEq] at hcd
              rw [← hcd]
              exact h.fresh s.next (Nat.le_refl s.next)
          · intro n hn
            have hn' : s.next + 1 ≤ n := hn
            rw [unregCount_append, h.fresh n (by omega), hch]
          · intro f
            rw [unregCount_append, hch]
            have := h.once f; omega
          · refine pairwise_insertA h.dis ?_ ?_
            · intro b hb cda cdb h1 h2
              simp only [Option.some.injEq] at h1
              obtain ⟨m, hm, hlt⟩ := h.bLt b hb cdb h2
              rw [← h1, hm]
              exact natCast_ne_of_ne (by omega)
            · intro a ha cda cdb h1 h2
              simp only [Option.some.injEq] at h2
              obtain ⟨m, hm, hlt⟩ := h.bLt a ha cda h1
              rw [← h2, hm]
              exact natCast_ne_of_ne (by omega)
      | some cd =>
        show MInv s (tr ++ [.writeStdin cd.pid mdata])
        exact h.append_zero (fun f => by simp [unregCount, List.countP_cons])
  | other =>
    show MInv s (tr ++ [])
    rw [List.append_nil]; exact h

/-- One full dispatcher step preserves the trace invariant. -/
theorem step_inv (evt : CallbackEvent) (w : World) {s : MState}
    {tr : List Effect} (h : MInv s tr) :
    MInv (step_handle evt w s).st (tr ++ (step_handle evt w s).tr) := by
  rcases evt with ⟨msg, ev, fd⟩
  have hmsg : MInv (match msg with
      | none => (⟨s, [], .ok⟩ : StepRes MState)
      | some m => msgPhase m w s).st
      (tr ++ (match msg with
      | none => (⟨s, [], .ok⟩ : StepRes MState)
      | some m => msgPhase m w s).tr) := by
    cases msg with
    | none => show MInv s (tr ++ []); rw [List.append_nil]; exact h
    | some m => exact msg_inv m w h
  simp only [step_handle]
  cases hout : (match msg with
      | none => (⟨s, [], .ok⟩ : StepRes MState)
      | some m => msgPhase m w s).out with
  | ok =>
    have hm := mon_inv w hmsg
    rcases ev with _ | readable
    · show MInv _ (tr ++ (_ ++ _))
      rw [← List.append_assoc]
      exact hm
    · rcases fd with _ | f
      · show MInv _ (tr ++ (_ ++ _))
        rw [← List.append_assoc]
        exact hm
      · cases readable with
        | false =>
          show MInv _ (tr ++ (_ ++ _))
          rw [← List.append_assoc]
          exact hm
        | true =>
          show MInv _ (tr ++ (_ ++ _ ++ _))
          rw [← List.append_assoc, ← List.append_assoc]
          exact hm.append_zero (read_count_zero f w _)
  | err e => exact hmsg
  | panicked => exact hmsg

/-- The invariant holds of the initial state and empty trace. -/
theorem init_inv : MInv init [] := by
  constructor
  · intro kv hkv; simp [init] at hkv
  · intro kv hkv; simp [init] at hkv
  · intro n _; rfl
  · intro f; exact Nat.le_succ 0
  · exact List.Pairwise.nil

/-- The step loop preserves the trace invariant. -/
theorem run_inv :
    ∀ (l : List (CallbackEvent × World)) {s : MState} {tr : List Effect},
      MInv s tr → MInv (run l s).1 (tr ++ (run l s).2) := by
  intro l
  induction l with
  | nil =>
    intro s tr h
    show MInv s (tr ++ [])
    rw [List.append_nil]; exact h
  | cons ew rest ih =>
    intro s tr h
    have h1 := step_inv ew.1 ew.2 h
    simp only [run]
    cases hout : (step_handle ew.1 ew.2 s).out with
    | ok =>
      have h2 := ih h1
      show MInv _ (tr ++ (_ ++ _))
      rw [← List.append_assoc]
      exact h2
    | err e => exact h1
    | panicked => exact h1

end Excl

theorem p2p_unsub_count_child_none (f : Int) (cd : P2p.ClientData)
    (h : cd.child = none) :
    unregCount f (P2p.unsubscribe_client cd) = 0 := by
  simp [P2p.unsubscribe_client, h, unregCount]

theorem p2p_unsub_count_child_some (f : Int) (cd : P2p.ClientData)
    (pid : Nat) (h : cd.child = some pid) :
    unregCount f (P2p.unsubscribe_client cd) =
      if cd.fd = f then 1 else 0 := by
  simp only [P2p.unsubscribe_client, h, unregCount, List.countP_cons,
    List.countP_nil]
  by_cases hf : cd.fd = f <;> simp [hf]

theorem p2p_unsub_count_le_one (f : Int) (cd : P2p.ClientData) :
    unregCount f (P2p.unsubscribe_client cd) ≤ 1 := by
  cases hc : cd.child with
  | none => rw [p2p_unsub_count_child_none f cd hc]; omega
  | some pid =>
    rw [p2p_unsub_count_child_some f cd pid hc]; split <;> omega

theorem p2p_unsub_count_zero_of_ne (f : Int) (cd : P2p.ClientData)
    (h : ∀ pid : Nat, cd.child = some pid → cd.fd ≠ f) :
    unregCount f (P2p.unsubscribe_client cd) = 0 := by
  cases hc : cd.child with
  | none => exact p2p_unsub_count_child_none f cd hc
  | some pid =>
    rw [p2p_unsub_count_child_some f cd pid hc, if_neg (h pid hc)]

theorem p2p_unsub_count_pos (f : Int) (cd : P2p.ClientData)
    (h : unregCount f (P2p.unsubscribe_client cd) ≠ 0) :
    ∃ pid : Nat, cd.child = some pid ∧ cd.fd = f := by
  cases hc : cd.child with
  | none => exact absurd (p2p_unsub_count_child_none f cd hc) h
  | some pid =>
    refine ⟨pid, rfl, ?_⟩
    rw [p2p_unsub_count_child_some f cd pid hc] at h
    by_contra hne
    rw [if_neg hne] at h
    exact h rfl

theorem p2p_usub_chunk_count (f : Int) (kv : Nat × P2p.ClientData) :
    unregCount f
      (.writeMsg .channelUnsubscribe kv.1 [] ::
        P2p.unsubscribe_client kv.2) =
      unregCount f (P2p.unsubscribe_client kv.2) := by
  simp [unregCount, List.countP_cons]

/-- Result of one UnsubscribeAll step of the exclusive policy: per entry,
one synthetic Unsubscribe notification then the entry's teardown, and the
registry is cleared. -/
theorem excl_usuball_step (w : World) (s : Excl.MState) (cid0 sz0 : Nat)
    (d0 : List Nat) :
    Excl.step_handle
      ⟨some ⟨.channelUnsubscribeAll, cid0, sz0, d0⟩, none, none⟩ w s =
      ⟨⟨[], s.next⟩,
       catMap (fun kv =>
         .writeMsg .channelUnsubscribe kv.1 [] ::
           Excl.unsubscribe_client kv.2) s.clients, .ok⟩ := by
  simp [Excl.step_handle, Excl.msgPhase, Excl.monitor_clients, catMap]

/-- Result of one UnsubscribeAll step of the identity-aware policy. -/
theorem p2p_usuball_step (w : World) (s : P2p.PState) (cid0 sz0 : Nat)
    (d0 : List Nat) :
    P2p.step_handle
      ⟨some ⟨.channelUnsubscribeAll, cid0, sz0, d0⟩, none, none⟩ w s =
      ⟨⟨[], s.next⟩,
       catMap (fun kv =>
         .writeMsg .channelUnsubscribe kv.1 [] ::
           P2p.unsubscribe_client kv.2) s.clients, .ok⟩ := by
  simp [P2p.step_handle, P2p.msgPhase, P2p.monitor_clients, catMap]

/-- Count of the Unsubscribe notification for key `k` contributed by one
entry's UnsubscribeAll chunk in the exclusive policy. -/
theorem excl_chunk_msgcount (k : Nat) (kv : Nat × Option Excl.ClientData) :
    (Effect.writeMsg .channelUnsubscribe kv.1 [] ::
      Excl.unsubscribe_client kv.2).countP
      (fun e => decide (e = Effect.writeMsg .channelUnsubscribe k [])) =
      if kv.1 = k then 1 else 0 := by
  rcases kv with ⟨k', v⟩
  cases v with
  | none =>
    by_cases h : k' = k <;>
      simp [Excl.unsubscribe_client, h, List.countP_cons]
  | some cd =>
    by_cases h : k' = k <;>
      simp [Excl.unsubscribe_client, h, List.countP_cons]

/-- Count of the Unsubscribe notification for key `k` contributed by one
entry's UnsubscribeAll chunk in the identity-aware policy. -/
theorem p2p_chunk_msgcount (k : Nat) (kv : Nat × P2p.ClientData) :
    (Effect.writeMsg .channelUnsubscribe kv.1 [] ::
      P2p.unsubscribe_client kv.2).countP
      (fun e => decide (e = Effect.writeMsg .channelUnsubscribe k [])) =
      if kv.1 = k then 1 else 0 := by
  rcases kv with ⟨k', v⟩
  cases hc : v.child with
  | none =>
    by_cases h : k' = k <;>
      simp [P2p.unsubscribe_client, hc, h, List.countP_cons]
  | some pid =>
    by_cases h : k' = k <;>
      simp [P2p.unsubscribe_client, hc, h, List.countP_cons]

/-- Result of an idle dispatcher step (no message, no readiness) of the
identity-aware policy: exactly the liveness monitor's effects. -/
theorem p2p_idle_step (w : World) (s : P2p.PState) :
    P2p.step_handle ⟨none, none, none⟩ w s =
      ⟨⟨s.clients.map (fun kv => (kv.1, P2p.monVal w kv.2)), s.next⟩,
       catMap (fun kv => P2p.monTr w kv.2) s.clients, .ok⟩ := by
  simp [P2p.step_handle, P2p.monitor_clients]

/-- Result of a Data step of the identity-aware policy for a subscribed
client with no process: spawn with the CUSER/CID environment, register
the fresh descriptor, forward the payload, then run the monitor. -/
theorem p2p_data_spawn_step (w2 : World) (s1 : P2p.PState)
    (id dlen : Nat) (d : List Nat) (cd1 : P2p.ClientData)
    (hlook : lookupA id s1.clients = some cd1) (hch : cd1.child = none)
    (hsp : w2.spawnOk = true) :
    P2p.step_handle ⟨some ⟨.channelData, id, dlen, d⟩, none, none⟩ w2 s1 =
      ⟨⟨(insertA id ⟨(s1.next : Int), some s1.next, cd1.user⟩
           s1.clients).map (fun kv => (kv.1, P2p.monVal w2 kv.2)),
         s1.next + 1⟩,
       [.spawnEnv s1.next cd1.user (decimalAscii id) true true,
        .register_io (s1.next : Int), .writeStdin s1.next d] ++
         catMap (fun kv => P2p.monTr w2 kv.2)
           (insertA id ⟨(s1.next : Int), some s1.next, cd1.user⟩
             s1.clients), .ok⟩ := by
  simp [P2p.step_handle, P2p.msgPhase, hlook, hch, hsp,
    P2p.monitor_clients]

/-- Result of an idle dispatcher step (no message, no readiness) of the
exclusive policy: exactly the liveness monitor's effects. -/
theorem excl_idle_step (w : World) (s : Excl.MState) :
    Excl.step_handle ⟨none, none, none⟩ w s =
      ⟨⟨s.clients.map (fun kv => (kv.1, Excl.monVal w kv.2)), s.next⟩,
       catMap (fun kv => Excl.monTr w kv.2) s.clients, .ok⟩ := by
  simp [Excl.step_handle, Excl.monitor_clients]

/-- Result of a Data step of the exclusive policy for a subscribed
client with no process: spawn, register the fresh descriptor, forward
the payload, then run the monitor. -/
theorem excl_data_spawn_step (w2 : World) (s1 : Excl.MState)
    (id dlen : Nat) (d : List Nat)
    (hlook : lookupA id s1.clients = some none)
    (hsp : w2.spawnOk = true) :
    Excl.step_handle ⟨some ⟨.channelData, id, dlen, d⟩, none, none⟩ w2
        s1 =
      ⟨⟨(insertA id (some ⟨(s1.next : Int), s1.next⟩)
           s1.clients).map (fun kv => (kv.1, Excl.monVal w2 kv.2)),
         s1.next + 1⟩,
       [.spawn s1.next, .register_io (s1.next : Int),
        .writeStdin s1.next d] ++
         catMap (fun kv => Excl.monTr w2 kv.2)
           (insertA id (some ⟨(s1.next : Int), s1.next⟩)
             s1.clients), .ok⟩ := by
  simp [Excl.step_handle, Excl.msgPhase, hlook, hsp,
    Excl.monitor_clients]

/-- Result of a Subscribe step of the identity-aware policy with a
well-formed payload: the entry is stored with no process and the
extracted label, then the monitor runs. -/
theorem p2p_subscribe_step (w : World) (s : P2p.PState) (id sz : Nat)
    (payload lbl : List Nat)
    (hex : extractUser sz payload = .okLabel lbl) :
    P2p.step_handle ⟨some ⟨.channelSubscribe, id, sz, payload⟩, none,
        none⟩ w s =
      ⟨⟨(insertA id ⟨-1, none, lbl⟩ s.clients).map
          (fun kv => (kv.1, P2p.monVal w kv.2)), s.next⟩,
       catMap (fun kv => P2p.monTr w kv.2)
         (insertA id ⟨-1, none, lbl⟩ s.clients), .ok⟩ := by
  simp [P2p.step_handle, P2p.msgPhase, hex, P2p.monitor_clients]

/-- Result of a readiness-only step of the exclusive policy: monitor
effects followed by the readiness reads over the reclaimed registry. -/
theorem excl_read_step (w : World) (s : Excl.MState) (f : Int) :
    Excl.step_handle ⟨none, some true, some f⟩ w s =
      ⟨⟨s.clients.map (fun kv => (kv.1, Excl.monVal w kv.2)), s.next⟩,
       catMap (fun kv => Excl.monTr w kv.2) s.clients ++
         Excl.readPhase f w
           ⟨s.clients.map (fun kv => (kv.1, Excl.monVal w kv.2)),
            s.next⟩, .ok⟩ := by
  simp [Excl.step_handle, Excl.monitor_clients]

/-- Result of a readiness-only step of the identity-aware policy. -/
theorem p2p_read_step (w : World) (s : P2p.PState) (f : Int) :
    P2p.step_handle ⟨none, some true, some f⟩ w s =
      ⟨⟨s.clients.map (fun kv => (kv.1, P2p.monVal w kv.2)), s.next⟩,
       catMap (fun kv => P2p.monTr w kv.2) s.clients ++
         P2p.readPhase f w
           ⟨s.clients.map (fun kv => (kv.1, P2p.monVal w kv.2)),
            s.next⟩, .ok⟩ := by
  simp [P2p.step_handle, P2p.monitor_clients]

/-- Claim C1, counterexample: in the exclusive policy, after Subscribe
then Data (which spawns a process and registers descriptor 0), a second
Subscribe for the same id replaces the live binding WITHOUT kill or
unregister, and after the final Unsubscribe the registry is empty while
descriptor 0 — though registered — was never unregistered: the
descriptor dangles, refuting the claimed teardown-on-overwrite and
exactly-once unregistration. -/
theorem C1_counterexample :
    Effect.register_io 0 ∈ (Excl.run c1events Excl.init).2 ∧
    unregCount 0 (Excl.run c1events Excl.init).2 = 0 ∧
    Effect.kill 0 ∉ (Excl.run c1events Excl.init).2 ∧
    (Excl.run c1events Excl.init).1.clients = [] := by
  decide

/-- Claim C1 (amended): along every sequence of dispatcher steps of the
exclusive policy from the initial state, every descriptor is unregistered
at most once — never twice; unregistration can however be skipped
entirely when a Subscribe overwrites an entry holding a live binding,
which drops the binding without kill or unregister and leaves the
descriptor dangling. -/
theorem C1_unregister_at_most_once (l : List (CallbackEvent × World))
    (f : Int) : unregCount f (Excl.run l Excl.init).2 ≤ 1 := by
  have h := (Excl.run_inv l Excl.init_inv).once f
  rwa [List.nil_append] at h

/-- Claim C2 (amended): a Data message whose client id has no registry
entry is non-fatal only in the identity-aware policy, where the whole
step behaves exactly as if no message had arrived (warning logged,
message dropped); in the exclusive policy the handler instead returns an
UnknownClient error, which stops the step loop; in the shared policy the
payload is forwarded to the shared process regardless of registration. -/
theorem C2_unknown_data (id sz : Nat) (payload : List Nat)
    (ev : Option Bool) (fd : Option Int) (w : World) (sp : P2p.PState)
    (sm : Excl.MState) (procPid : Nat) (sb : Bcast.BState)
    (hp : lookupA id sp.clients = none)
    (hm : lookupA id sm.clients = none) :
    P2p.step_handle ⟨some ⟨.channelData, id, sz, payload⟩, ev, fd⟩ w sp =
      P2p.step_handle ⟨none, ev, fd⟩ w sp ∧
    Excl.step_handle ⟨some ⟨.channelData, id, sz, payload⟩, ev, fd⟩ w sm =
      ⟨sm, [], .err (.unknownClient id)⟩ ∧
    Bcast.step_handle ⟨some ⟨.channelData, id, sz, payload⟩, none, none⟩
      w procPid sb = ⟨sb, [.writeStdin procPid payload], .ok⟩ := by
  refine ⟨?_, ?_, ?_⟩
  · simp [P2p.step_handle, P2p.msgPhase, hp]
  · simp [Excl.step_handle, Excl.msgPhase, hm]
  · simp [Bcast.step_handle]

theorem C2_unknown_data_witness :
    P2p.step_handle ⟨some ⟨.channelData, 5, 1, [1]⟩, none, none⟩ w0
        P2p.init =
      P2p.step_handle ⟨none, none, none⟩ w0 P2p.init ∧
    Excl.step_handle ⟨some ⟨.channelData, 5, 1, [1]⟩, none, none⟩ w0
        Excl.init =
      ⟨Excl.init, [], .err (.unknownClient 5)⟩ ∧
    Bcast.step_handle ⟨some ⟨.channelData, 5, 1, [1]⟩, none, none⟩ w0 0
        ⟨[]⟩ =
      ⟨⟨[]⟩, [.writeStdin 0 [1]], .ok⟩ :=
  C2_unknown_data 5 1 [1] none none w0 P2p.init Excl.init 0 ⟨[]⟩ rfl rfl

/-- Claim C2, counterexample: in the exclusive policy a Data message for
an unregistered client id makes the handler return an UnknownClient
error rather than returning successfully, so the claimed behavior does
not hold in every policy. -/
theorem C2_counterexample :
    (Excl.step_handle ⟨some ⟨.channelData, 5, 1, [1]⟩, none, none⟩ w0
        Excl.init).out = .err (.unknownClient 5) ∧
    (Excl.step_handle ⟨some ⟨.channelData, 5, 1, [1]⟩, none, none⟩ w0
        Excl.init).out ≠ .ok := by
  decide

/-- The full effect trace of the Subscribe → Data → Unsubscribe scenario
of the exclusive policy, from the initial state. -/
theorem c3_trace (id : Nat) (payload : List Nat) :
    (Excl.run (c3events id payload) Excl.init).2 =
      [.spawn 0, .register_io 0, .writeStdin 0 payload,
       .unregister_io 0, .kill 0] := by
  simp [c3events, Excl.run, Excl.step_handle, Excl.msgPhase, Excl.init,
    Excl.monitor_clients, Excl.monVal, Excl.monTr, Excl.unsubscribe_client,
    catMap, insertA, lookupA, removeA, w0]

/-- The full effect trace of the Subscribe → Data → Unsubscribe scenario
of the identity-aware policy, from the initial state. -/
theorem c3p_trace (id : Nat) (payload : List Nat) :
    (P2p.run (c3eventsP id payload) P2p.init).2 =
      [.spawnEnv 0 [97] (decimalAscii id) true true, .register_io 0,
       .writeStdin 0 payload, .unregister_io 0, .kill 0] := by
  have hex : extractUser 2 [97, 0] = .okLabel [97] := by decide
  simp [c3eventsP, P2p.run, P2p.step_handle, P2p.msgPhase, P2p.init,
    P2p.monitor_clients, P2p.monVal, P2p.monTr, P2p.unsubscribe_client,
    hex, catMap, insertA, lookupA, removeA, w0]

/-- Claim C3 (amended): in both the exclusive and the identity-aware
policy, for Subscribe → Data → Unsubscribe on one client id, exactly one
spawn, one kill and one descriptor-unregister occur, but the unregister
occurs BEFORE the kill: teardown unregisters the descriptor first and
then kills the process. -/
theorem C3_lifecycle (id : Nat) (payload : List Nat) :
    (((Excl.run (c3events id payload) Excl.init).2.countP isSpawn = 1 ∧
      (Excl.run (c3events id payload) Excl.init).2.countP isKill = 1 ∧
      (Excl.run (c3events id payload) Excl.init).2.countP isUnreg = 1) ∧
     precedes isUnreg isKill
       (Excl.run (c3events id payload) Excl.init).2) ∧
    (((P2p.run (c3eventsP id payload) P2p.init).2.countP isSpawn = 1 ∧
      (P2p.run (c3eventsP id payload) P2p.init).2.countP isKill = 1 ∧
      (P2p.run (c3eventsP id payload) P2p.init).2.countP isUnreg = 1) ∧
     precedes isUnreg isKill
       (P2p.run (c3eventsP id payload) P2p.init).2) := by
  constructor
  · rw [c3_trace id payload]
    exact ⟨⟨rfl, rfl, rfl⟩, ⟨3, by show 3 < 5; omega⟩,
      ⟨4, by show 4 < 5; omega⟩, by show 3 < 4; omega, rfl, rfl⟩
  · rw [c3p_trace id payload]
    exact ⟨⟨rfl, rfl, rfl⟩, ⟨3, by show 3 < 5; omega⟩,
      ⟨4, by show 4 < 5; omega⟩, by show 3 < 4; omega, rfl, rfl⟩

/-- Claim C3, counterexample: in the Subscribe → Data → Unsubscribe
scenario for client 7, in the exclusive policy as well as in the
identity-aware policy, it is false that the kill occurs before the
descriptor-unregister (both traces unregister first, then kill). -/
theorem C3_counterexample :
    ¬ ((Excl.run (c3events 7 [1, 2, 3]) Excl.init).2.countP isSpawn = 1 ∧
       (Excl.run (c3events 7 [1, 2, 3]) Excl.init).2.countP isKill = 1 ∧
       (Excl.run (c3events 7 [1, 2, 3]) Excl.init).2.countP isUnreg = 1 ∧
       precedes isKill isUnreg
         (Excl.run (c3events 7 [1, 2, 3]) Excl.init).2) ∧
    ¬ ((P2p.run (c3eventsP 7 [1, 2, 3]) P2p.init).2.countP isSpawn = 1 ∧
       (P2p.run (c3eventsP 7 [1, 2, 3]) P2p.init).2.countP isKill = 1 ∧
       (P2p.run (c3eventsP 7 [1, 2, 3]) P2p.init).2.countP isUnreg = 1 ∧
       precedes isKill isUnreg
         (P2p.run (c3eventsP 7 [1, 2, 3]) P2p.init).2) := by
  decide

/-- Claim C4 (amended): in the identity-aware policy, a Subscribe whose
label bytes are not valid UTF-8 fails that message with the registry
left unchanged and no effects emitted, but the failure PROPAGATES out of
the handler as a decode error, so the step loop stops: the step after
it never runs. -/
theorem C4_decode_error (id sz : Nat) (payload : List Nat)
    (ev : Option Bool) (fdo : Option Int) (w : World) (s : P2p.PState)
    (h0 : sz ≠ 0) (h1 : sz - 1 ≤ payload.length)
    (h2 : utf8Valid (payload.take (sz - 1)) = false) :
    P2p.step_handle ⟨some ⟨.channelSubscribe, id, sz, payload⟩, ev, fdo⟩
        w s = ⟨s, [], .err .decodeError⟩ ∧
    (∀ rest : List (CallbackEvent × World),
      P2p.run ((⟨some ⟨.channelSubscribe, id, sz, payload⟩, ev, fdo⟩, w)
        :: rest) s = (s, [])) := by
  have hex : extractUser sz payload = .badUtf8 := by
    simp [extractUser, h0, h1, h2]
  refine ⟨?_, ?_⟩
  · simp [P2p.step_handle, P2p.msgPhase, hex]
  · intro rest
    simp [P2p.run, P2p.step_handle, P2p.msgPhase, hex]

theorem C4_decode_error_witness :
    P2p.step_handle ⟨some ⟨.channelSubscribe, 1, 2, [255, 0]⟩, none, none⟩
        w0 P2p.init = ⟨P2p.init, [], .err .decodeError⟩ ∧
    P2p.run [(⟨some ⟨.channelSubscribe, 1, 2, [255, 0]⟩, none, none⟩, w0)]
        P2p.init = (P2p.init, []) :=
  ⟨(C4_decode_error 1 2 [255, 0] none none w0 P2p.init (by decide)
      (by decide) (by decide)).1,
   (C4_decode_error 1 2 [255, 0] none none w0 P2p.init (by decide)
      (by decide) (by decide)).2 []⟩

/-- Claim C4, counterexample: a Subscribe with payload 0xFF 0x00 (label
byte 0xFF, not valid UTF-8) makes the identity-aware handler return a
decode error instead of returning successfully: the error propagates
out of the handler. -/
theorem C4_counterexample :
    (P2p.step_handle
      ⟨some ⟨.channelSubscribe, 1, 2, [255, 0]⟩, none, none⟩ w0
      P2p.init).out ≠ .ok ∧
    (P2p.step_handle
      ⟨some ⟨.channelSubscribe, 1, 2, [255, 0]⟩, none, none⟩ w0
      P2p.init).out = .err .decodeError := by
  decide

/-- Claim C10: in the identity-aware and in the shared policy, a
Subscribe message of size 0 makes the handler panic with an
out-of-bounds index (the slice bound `size - 1` underflows below zero);
no error value is returned, no label is stored, and the registry is
untouched. -/
theorem C10_size_zero_panics (id : Nat) (payload : List Nat)
    (ev : Option Bool) (fdo : Option Int) (w : World) (sp : P2p.PState)
    (procPid : Nat) (sb : Bcast.BState) :
    P2p.step_handle ⟨some ⟨.channelSubscribe, id, 0, payload⟩, ev, fdo⟩
        w sp = ⟨sp, [], .panicked⟩ ∧
    Bcast.step_handle ⟨some ⟨.channelSubscribe, id, 0, payload⟩, ev, fdo⟩
        w procPid sb = ⟨sb, [], .panicked⟩ := by
  have hex : extractUser 0 payload = .panicOOB := by simp [extractUser]
  refine ⟨?_, ?_⟩
  · simp [P2p.step_handle, P2p.msgPhase, hex]
  · simp [Bcast.step_handle, hex]

/-- Claim C5: in the exclusive and identity-aware policies, for every
registry state (with the HashMap's distinct keys, and distinct live
descriptors), handling UnsubscribeAll emits exactly one outbound
Unsubscribe notification per currently-registered client id, unregisters
the descriptor of every entry holding a live binding exactly once (never
twice), kills each such bound process, and leaves the registry empty. -/
theorem C5_unsubscribe_all (w : World) (sm : Excl.MState)
    (sp : P2p.PState) (cid0 sz0 : Nat) (d0 : List Nat)
    (hkeysM : sm.clients.Pairwise (fun a b => a.1 ≠ b.1))
    (hdisM : sm.clients.Pairwise Rfd)
    (hkeysP : sp.clients.Pairwise (fun a b => a.1 ≠ b.1))
    (hdisP : sp.clients.Pairwise RfdP) :
    ((Excl.step_handle ⟨some ⟨.channelUnsubscribeAll, cid0, sz0, d0⟩,
        none, none⟩ w sm).st.clients = [] ∧
     (∀ kv ∈ sm.clients,
       (Excl.step_handle ⟨some ⟨.channelUnsubscribeAll, cid0, sz0, d0⟩,
         none, none⟩ w sm).tr.countP
         (fun e => decide
           (e = Effect.writeMsg .channelUnsubscribe kv.1 [])) = 1) ∧
     (∀ kv ∈ sm.clients, ∀ cd : Excl.ClientData, kv.2 = some cd →
       unregCount cd.fd
         (Excl.step_handle ⟨some ⟨.channelUnsubscribeAll, cid0, sz0, d0⟩,
           none, none⟩ w sm).tr = 1 ∧
       Effect.kill cd.pid ∈
         (Excl.step_handle ⟨some ⟨.channelUnsubscribeAll, cid0, sz0, d0⟩,
           none, none⟩ w sm).tr)) ∧
    ((P2p.step_handle ⟨some ⟨.channelUnsubscribeAll, cid0, sz0, d0⟩,
        none, none⟩ w sp).st.clients = [] ∧
     (∀ kv ∈ sp.clients,
       (P2p.step_handle ⟨some ⟨.channelUnsubscribeAll, cid0, sz0, d0⟩,
         none, none⟩ w sp).tr.countP
         (fun e => decide
           (e = Effect.writeMsg .channelUnsubscribe kv.1 [])) = 1) ∧
     (∀ kv ∈ sp.clients, ∀ pid : Nat, kv.2.child = some pid →
       unregCount kv.2.fd
         (P2p.step_handle ⟨some ⟨.channelUnsubscribeAll, cid0, sz0, d0⟩,
           none, none⟩ w sp).tr = 1 ∧
       Effect.kill pid ∈
         (P2p.step_handle ⟨some ⟨.channelUnsubscribeAll, cid0, sz0, d0⟩,
           none, none⟩ w sp).tr)) := by
  have hshM := excl_usuball_step w sm cid0 sz0 d0
  have hshP := p2p_usuball_step w sp cid0 sz0 d0
  refine ⟨⟨?_, ?_, ?_⟩, ?_, ?_, ?_⟩
  · rw [hshM]
  · intro kv hkv
    rw [hshM]
    refine countP_catMap_eq_one ?_ hkv
      ((excl_chunk_msgcount kv.1 kv).trans (if_pos rfl))
    refine hkeysM.imp ?_
    intro x y hne
    by_cases hx : x.1 = kv.1
    · refine Or.inr ?_
      rw [excl_chunk_msgcount, if_neg (fun hy => hne (hx.trans hy.symm))]
    · refine Or.inl ?_
      rw [excl_chunk_msgcount, if_neg hx]
  · intro kv hkv cd hcd
    refine ⟨?_, ?_⟩
    · rw [hshM]
      refine unregCount_catMap_eq_one ?_ hkv
        ((Excl.usub_chunk_count _ kv).trans
          (by rw [hcd, Excl.unsub_count_some, if_pos rfl]))
      refine hdisM.imp ?_
      intro x y hr
      by_cases h1 : unregCount cd.fd
          (.writeMsg .channelUnsubscribe x.1 [] ::
            Excl.unsubscribe_client x.2) = 0
      · exact Or.inl h1
      · rw [Excl.usub_chunk_count] at h1
        obtain ⟨cd1, hv1, hf1⟩ := Excl.unsub_count_pos _ x.2 h1
        refine Or.inr ((Excl.usub_chunk_count _ y).trans
          (Excl.unsub_count_zero_of_ne _ y.2 ?_))
        intro cd2 hv2 heq2
        exact hr cd1 cd2 hv1 hv2 (by rw [hf1, heq2])
    · rw [hshM]
      exact mem_catMap_of hkv
        (by simp [Excl.unsubscribe_client, hcd])
  · rw [hshP]
  · intro kv hkv
    rw [hshP]
    refine countP_catMap_eq_one ?_ hkv
      ((p2p_chunk_msgcount kv.1 kv).trans (if_pos rfl))
    refine hkeysP.imp ?_
    intro x y hne
    by_cases hx : x.1 = kv.1
    · refine Or.inr ?_
      rw [p2p_chunk_msgcount, if_neg (fun hy => hne (hx.trans hy.symm))]
    · refine Or.inl ?_
      rw [p2p_chunk_msgcount, if_neg hx]
  · intro kv hkv pid hch
    refine ⟨?_, ?_⟩
    · rw [hshP]
      refine unregCount_catMap_eq_one ?_ hkv
        ((p2p_usub_chunk_count _ kv).trans
          (by rw [p2p_unsub_count_child_some _ _ pid hch, if_pos rfl]))
      refine hdisP.imp ?_
      intro x y hr
      by_cases h1 : unregCount kv.2.fd
          (.writeMsg .channelUnsubscribe x.1 [] ::
            P2p.unsubscribe_client x.2) = 0
      · exact Or.inl h1
      · rw [p2p_usub_chunk_count] at h1
        obtain ⟨p1, hv1, hf1⟩ := p2p_unsub_count_pos _ x.2 h1
        refine Or.inr ((p2p_usub_chunk_count _ y).trans
          (p2p_unsub_count_zero_of_ne _ y.2 ?_))
        intro p2 hv2 heq2
        exact hr p1 p2 hv1 hv2 (by rw [hf1, heq2])
    · rw [hshP]
      exact mem_catMap_of hkv
        (by simp [P2p.unsubscribe_client, hch])

theorem C5_unsubscribe_all_witness :
    ((Excl.step_handle ⟨some ⟨.channelUnsubscribeAll, 0, 0, []⟩,
        none, none⟩ w0 ⟨[(1, some ⟨0, 0⟩)], 1⟩).st.clients = [] ∧
     (∀ kv ∈ [(1, some (⟨0, 0⟩ : Excl.ClientData))],
       (Excl.step_handle ⟨some ⟨.channelUnsubscribeAll, 0, 0, []⟩,
         none, none⟩ w0 ⟨[(1, some ⟨0, 0⟩)], 1⟩).tr.countP
         (fun e => decide
           (e = Effect.writeMsg .channelUnsubscribe kv.1 [])) = 1) ∧
     (∀ kv ∈ [(1, some (⟨0, 0⟩ : Excl.ClientData))],
       ∀ cd : Excl.ClientData, kv.2 = some cd →
       unregCount cd.fd
         (Excl.step_handle ⟨some ⟨.channelUnsubscribeAll, 0, 0, []⟩,
           none, none⟩ w0 ⟨[(1, some ⟨0, 0⟩)], 1⟩).tr = 1 ∧
       Effect.kill cd.pid ∈
         (Excl.step_handle ⟨some ⟨.channelUnsubscribeAll, 0, 0, []⟩,
           none, none⟩ w0 ⟨[(1, some ⟨0, 0⟩)], 1⟩).tr)) ∧
    ((P2p.step_handle ⟨some ⟨.channelUnsubscribeAll, 0, 0, []⟩,
        none, none⟩ w0 ⟨[(3, ⟨5, some 9, [97]⟩)], 10⟩).st.clients = [] ∧
     (∀ kv ∈ [(3, (⟨5, some 9, [97]⟩ : P2p.ClientData))],
       (P2p.step_handle ⟨some ⟨.channelUnsubscribeAll, 0, 0, []⟩,
         none, none⟩ w0 ⟨[(3, ⟨5, some 9, [97]⟩)], 10⟩).tr.countP
         (fun e => decide
           (e = Effect.writeMsg .channelUnsubscribe kv.1 [])) = 1) ∧
     (∀ kv ∈ [(3, (⟨5, some 9, [97]⟩ : P2p.ClientData))],
       ∀ pid : Nat, kv.2.child = some pid →
       unregCount kv.2.fd
         (P2p.step_handle ⟨some ⟨.channelUnsubscribeAll, 0, 0, []⟩,
           none, none⟩ w0 ⟨[(3, ⟨5, some 9, [97]⟩)], 10⟩).tr = 1 ∧
       Effect.kill pid ∈
         (P2p.step_handle ⟨some ⟨.channelUnsubscribeAll, 0, 0, []⟩,
           none, none⟩ w0 ⟨[(3, ⟨5, some 9, [97]⟩)], 10⟩).tr)) :=
  C5_unsubscribe_all w0 ⟨[(1, some ⟨0, 0⟩)], 1⟩ ⟨[(3, ⟨5, some 9, [97]⟩)], 10⟩
    0 0 []
    (List.pairwise_singleton _ _) (List.pairwise_singleton _ _)
    (List.pairwise_singleton _ _) (List.pairwise_singleton _ _)

/-- Claim C6: in the exclusive and in the identity-aware policy, when a
subscribed client's process has terminated, the next dispatcher step's
monitor detects the exit, unregisters the binding's descriptor, and
resets the entry to no process while keeping it subscribed (same key,
and for the identity policy the same label); a subsequent Data message
for that id then spawns a fresh process and rebinds the entry. -/
theorem C6_exit_reclaim_respawn (wm wm2 wp wp2 : World)
    (sm : Excl.MState) (sp : P2p.PState)
    (idm idp pidp statusm statusp dlenm dlenp : Nat)
    (cdm : Excl.ClientData) (cdp : P2p.ClientData) (dm dp : List Nat)
    (hlookM : lookupA idm sm.clients = some (some cdm))
    (hexM : wm.exited cdm.pid = some statusm)
    (hspM : wm2.spawnOk = true)
    (hex2M : wm2.exited sm.next = none)
    (hlookP : lookupA idp sp.clients = some cdp)
    (hchP : cdp.child = some pidp)
    (hexP : wp.exited pidp = some statusp)
    (hspP : wp2.spawnOk = true)
    (hex2P : wp2.exited sp.next = none) :
    ((Excl.step_handle ⟨none, none, none⟩ wm sm).out = .ok ∧
     lookupA idm (Excl.step_handle ⟨none, none, none⟩ wm
        sm).st.clients = some none ∧
     Effect.unregister_io cdm.fd ∈
       (Excl.step_handle ⟨none, none, none⟩ wm sm).tr ∧
     Effect.spawn sm.next ∈
       (Excl.step_handle ⟨some ⟨.channelData, idm, dlenm, dm⟩, none,
          none⟩ wm2
         (Excl.step_handle ⟨none, none, none⟩ wm sm).st).tr ∧
     lookupA idm (Excl.step_handle ⟨some ⟨.channelData, idm, dlenm,
          dm⟩, none, none⟩ wm2
         (Excl.step_handle ⟨none, none, none⟩ wm sm).st).st.clients =
       some (some ⟨(sm.next : Int), sm.next⟩)) ∧
    ((P2p.step_handle ⟨none, none, none⟩ wp sp).out = .ok ∧
     lookupA idp (P2p.step_handle ⟨none, none, none⟩ wp
        sp).st.clients = some ⟨-1, none, cdp.user⟩ ∧
     Effect.unregister_io cdp.fd ∈
       (P2p.step_handle ⟨none, none, none⟩ wp sp).tr ∧
     Effect.spawnEnv sp.next cdp.user (decimalAscii idp) true true ∈
       (P2p.step_handle ⟨some ⟨.channelData, idp, dlenp, dp⟩, none,
          none⟩ wp2
         (P2p.step_handle ⟨none, none, none⟩ wp sp).st).tr ∧
     lookupA idp (P2p.step_handle ⟨some ⟨.channelData, idp, dlenp,
          dp⟩, none, none⟩ wp2
         (P2p.step_handle ⟨none, none, none⟩ wp sp).st).st.clients =
       some ⟨(sp.next : Int), some sp.next, cdp.user⟩) := by
  constructor
  · rw [excl_idle_step]
    dsimp only
    have hb : lookupA idm
        (sm.clients.map (fun kv => (kv.1, Excl.monVal wm kv.2))) =
        some none := by
      rw [lookupA_map_val, hlookM]
      simp [Excl.monVal, hexM]
    refine ⟨rfl, hb, ?_, ?_, ?_⟩
    · exact mem_catMap_of (lookupA_mem hlookM)
        (by simp [Excl.monTr, hexM])
    · rw [excl_data_spawn_step wm2
        ⟨sm.clients.map (fun kv => (kv.1, Excl.monVal wm kv.2)),
         sm.next⟩ idm dlenm dm hb hspM]
      exact List.mem_append_left _ (List.mem_cons_self _ _)
    · rw [excl_data_spawn_step wm2
        ⟨sm.clients.map (fun kv => (kv.1, Excl.monVal wm kv.2)),
         sm.next⟩ idm dlenm dm hb hspM]
      dsimp only
      rw [lookupA_map_val, lookupA_insertA_self]
      simp [Excl.monVal, hex2M]
  · rw [p2p_idle_step]
    dsimp only
    have hb : lookupA idp
        (sp.clients.map (fun kv => (kv.1, P2p.monVal wp kv.2))) =
        some ⟨-1, none, cdp.user⟩ := by
      rw [lookupA_map_val, hlookP]
      simp [P2p.monVal, hchP, hexP]
    refine ⟨rfl, hb, ?_, ?_, ?_⟩
    · exact mem_catMap_of (lookupA_mem hlookP)
        (by simp [P2p.monTr, hchP, hexP])
    · rw [p2p_data_spawn_step wp2
        ⟨sp.clients.map (fun kv => (kv.1, P2p.monVal wp kv.2)),
         sp.next⟩ idp dlenp dp ⟨-1, none, cdp.user⟩ hb rfl hspP]
      exact List.mem_append_left _ (List.mem_cons_self _ _)
    · rw [p2p_data_spawn_step wp2
        ⟨sp.clients.map (fun kv => (kv.1, P2p.monVal wp kv.2)),
         sp.next⟩ idp dlenp dp ⟨-1, none, cdp.user⟩ hb rfl hspP]
      dsimp only
      rw [lookupA_map_val, lookupA_insertA_self]
      simp [P2p.monVal, hex2P]

theorem C6_exit_reclaim_respawn_witness :
    ((Excl.step_handle ⟨none, none, none⟩ wExit9
       ⟨[(1, some ⟨5, 9⟩)], 10⟩).out = .ok ∧
     lookupA 1 (Excl.step_handle ⟨none, none, none⟩ wExit9
       ⟨[(1, some ⟨5, 9⟩)], 10⟩).st.clients = some none ∧
     Effect.unregister_io 5 ∈
       (Excl.step_handle ⟨none, none, none⟩ wExit9
         ⟨[(1, some ⟨5, 9⟩)], 10⟩).tr ∧
     Effect.spawn 10 ∈
       (Excl.step_handle ⟨some ⟨.channelData, 1, 1, [1]⟩, none, none⟩
         w0 (Excl.step_handle ⟨none, none, none⟩ wExit9
           ⟨[(1, some ⟨5, 9⟩)], 10⟩).st).tr ∧
     lookupA 1 (Excl.step_handle ⟨some ⟨.channelData, 1, 1, [1]⟩, none,
         none⟩ w0 (Excl.step_handle ⟨none, none, none⟩ wExit9
           ⟨[(1, some ⟨5, 9⟩)], 10⟩).st).st.clients =
       some (some ⟨(10 : Int), 10⟩)) ∧
    ((P2p.step_handle ⟨none, none, none⟩ wExit9
       ⟨[(3, ⟨5, some 9, [97]⟩)], 10⟩).out = .ok ∧
     lookupA 3 (P2p.step_handle ⟨none, none, none⟩ wExit9
       ⟨[(3, ⟨5, some 9, [97]⟩)], 10⟩).st.clients =
       some ⟨-1, none, [97]⟩ ∧
     Effect.unregister_io 5 ∈
       (P2p.step_handle ⟨none, none, none⟩ wExit9
         ⟨[(3, ⟨5, some 9, [97]⟩)], 10⟩).tr ∧
     Effect.spawnEnv 10 [97] (decimalAscii 3) true true ∈
       (P2p.step_handle ⟨some ⟨.channelData, 3, 1, [1]⟩, none, none⟩ w0
         (P2p.step_handle ⟨none, none, none⟩ wExit9
           ⟨[(3, ⟨5, some 9, [97]⟩)], 10⟩).st).tr ∧
     lookupA 3 (P2p.step_handle ⟨some ⟨.channelData, 3, 1, [1]⟩, none,
         none⟩ w0 (P2p.step_handle ⟨none, none, none⟩ wExit9
           ⟨[(3, ⟨5, some 9, [97]⟩)], 10⟩).st).st.clients =
       some ⟨(10 : Int), some 10, [97]⟩) :=
  C6_exit_reclaim_respawn wExit9 w0 wExit9 w0
    ⟨[(1, some ⟨5, 9⟩)], 10⟩ ⟨[(3, ⟨5, some 9, [97]⟩)], 10⟩
    1 3 9 0 0 1 1 ⟨5, 9⟩ ⟨5, some 9, [97]⟩ [1] [1]
    rfl rfl rfl rfl rfl rfl rfl rfl rfl

theorem map_writeMsg_count_zero (k : Nat) (bytes : List Nat) :
    ∀ (l : List (Nat × List Nat)), (∀ kv ∈ l, kv.1 ≠ k) →
      (l.map (fun kv =>
        Effect.writeMsg .channelData kv.1 bytes)).countP
        (fun e => decide (e = Effect.writeMsg .channelData k bytes)) = 0 := by
  intro l
  induction l with
  | nil => intro _; rfl
  | cons h t ih =>
    intro hne
    simp only [List.map_cons, List.countP_cons]
    rw [ih (fun kv hkv => hne kv (List.mem_cons_of_mem h hkv))]
    simp [hne h (List.mem_cons_self h t)]

theorem map_writeMsg_count_one (k : Nat) (bytes : List Nat) :
    ∀ (l : List (Nat × List Nat)),
      l.Pairwise (fun a b => a.1 ≠ b.1) →
      ∀ u, (k, u) ∈ l →
      (l.map (fun kv =>
        Effect.writeMsg .channelData kv.1 bytes)).countP
        (fun e => decide (e = Effect.writeMsg .channelData k bytes)) = 1 := by
  intro l
  induction l with
  | nil => intro _ u hu; cases hu
  | cons h t ih =>
    intro hp u hu
    rw [List.pairwise_cons] at hp
    simp only [List.map_cons, List.countP_cons]
    rcases List.mem_cons.1 hu with rfl | hut
    · rw [map_writeMsg_count_zero k bytes t
        (fun kv hkv => (hp.1 kv hkv).symm)]
      simp
    · rw [ih hp.2 u hut]
      simp [hp.1 (k, u) hut]

/-- Claim C7: in the shared policy, a readiness notification triggers
exactly one read of at most 2048 bytes from the shared process's output,
and the bytes read are fanned out as exactly one outbound Data message
per currently-subscribed client id, each tagged with that client's own
id and all carrying identical payloads equal to the bytes read; the
registry is unchanged. -/
theorem C7_broadcast_fanout (w : World) (procPid : Nat) (f : Int)
    (s : Bcast.BState)
    (hkeys : s.clients.Pairwise (fun a b => a.1 ≠ b.1)) :
    (Bcast.step_handle ⟨none, some true, some f⟩ w procPid s).st = s ∧
    (Bcast.step_handle ⟨none, some true, some f⟩ w procPid s).tr =
      .readStdout procPid ((w.readData procPid).take 2048).length ::
        s.clients.map (fun kv =>
          .writeMsg .channelData kv.1 ((w.readData procPid).take 2048)) ∧
    ((w.readData procPid).take 2048).length ≤ 2048 ∧
    (Bcast.step_handle ⟨none, some true, some f⟩ w procPid s).tr.countP
      isRead = 1 ∧
    (∀ k : Nat, ∀ p : List Nat,
      Effect.writeMsg .channelData k p ∈
        (Bcast.step_handle ⟨none, some true, some f⟩ w procPid s).tr →
      p = (w.readData procPid).take 2048 ∧
        k ∈ s.clients.map Prod.fst) ∧
    (∀ kv ∈ s.clients,
      (Bcast.step_handle ⟨none, some true, some f⟩ w procPid s).tr.countP
        (fun e => decide (e = Effect.writeMsg .channelData kv.1
          ((w.readData procPid).take 2048))) = 1) := by
  have hb : (Bcast.step_handle ⟨none, some true, some f⟩ w procPid s).tr =
      .readStdout procPid ((w.readData procPid).take 2048).length ::
        s.clients.map (fun kv =>
          .writeMsg .channelData kv.1 ((w.readData procPid).take 2048)) := by
    simp [Bcast.step_handle]
  refine ⟨by simp [Bcast.step_handle], hb, List.length_take_le _ _,
    ?_, ?_, ?_⟩
  · rw [hb, List.countP_cons]
    rw [List.countP_eq_zero.2 ?_]
    · simp [isRead]
    · intro a ha
      obtain ⟨kv, _, rfl⟩ := List.mem_map.1 ha
      simp [isRead]
  · intro k p hmem
    rw [hb] at hmem
    rcases List.mem_cons.1 hmem with heq | hmap
    · cases heq
    · obtain ⟨kv, hkv, heq⟩ := List.mem_map.1 hmap
      have h1 : kv.1 = k ∧ (w.readData procPid).take 2048 = p := by
        simpa using heq
      exact ⟨h1.2.symm, h1.1 ▸ List.mem_map_of_mem Prod.fst hkv⟩
  · intro kv hkv
    rw [hb, List.countP_cons]
    rw [map_writeMsg_count_one kv.1 _ s.clients hkeys kv.2
      (by rcases kv with ⟨a, b⟩; exact hkv)]
    simp

theorem C7_broadcast_fanout_witness :
    (Bcast.step_handle ⟨none, some true, some 4⟩ wRead3 0
      ⟨[(1, [97]), (2, [98])]⟩).st = ⟨[(1, [97]), (2, [98])]⟩ ∧
    (Bcast.step_handle ⟨none, some true, some 4⟩ wRead3 0
      ⟨[(1, [97]), (2, [98])]⟩).tr =
      .readStdout 0 ((wRead3.readData 0).take 2048).length ::
        ([(1, [97]), (2, [98])] : List (Nat × List Nat)).map (fun kv =>
          .writeMsg .channelData kv.1 ((wRead3.readData 0).take 2048)) ∧
    ((wRead3.readData 0).take 2048).length ≤ 2048 ∧
    (Bcast.step_handle ⟨none, some true, some 4⟩ wRead3 0
      ⟨[(1, [97]), (2, [98])]⟩).tr.countP isRead = 1 ∧
    (∀ k : Nat, ∀ p : List Nat,
      Effect.writeMsg .channelData k p ∈
        (Bcast.step_handle ⟨none, some true, some 4⟩ wRead3 0
          ⟨[(1, [97]), (2, [98])]⟩).tr →
      p = (wRead3.readData 0).take 2048 ∧
        k ∈ ([(1, [97]), (2, [98])] : List (Nat × List Nat)).map
          Prod.fst) ∧
    (∀ kv ∈ ([(1, [97]), (2, [98])] : List (Nat × List Nat)),
      (Bcast.step_handle ⟨none, some true, some 4⟩ wRead3 0
        ⟨[(1, [97]), (2, [98])]⟩).tr.countP
        (fun e => decide (e = Effect.writeMsg .channelData kv.1
          ((wRead3.readData 0).take 2048))) = 1) :=
  C7_broadcast_fanout wRead3 0 4 ⟨[(1, [97]), (2, [98])]⟩ (by simp)

/-- Claim C8: in the identity-aware policy, a Subscribe whose payload is
a valid-UTF-8 label followed by one terminator byte (size = label length
plus one) stores the label with the terminator stripped; the first
subsequent Data message for that id spawns a process with environment
CUSER set to that label and CID set to the client id rendered in
decimal, with standard input and output piped, and rebinds the entry to
the fresh process. -/
theorem C8_identity_label_env (w w2 : World) (s : P2p.PState)
    (id t dlen : Nat) (lbl d : List Nat)
    (hutf : utf8Valid lbl = true)
    (hsp : w2.spawnOk = true)
    (hex2 : w2.exited s.next = none) :
    (P2p.step_handle ⟨some ⟨.channelSubscribe, id, lbl.length + 1,
        lbl ++ [t]⟩, none, none⟩ w s).out = .ok ∧
    lookupA id (P2p.step_handle ⟨some ⟨.channelSubscribe, id,
        lbl.length + 1, lbl ++ [t]⟩, none, none⟩ w s).st.clients =
      some ⟨-1, none, lbl⟩ ∧
    Effect.spawnEnv s.next lbl (decimalAscii id) true true ∈
      (P2p.step_handle ⟨some ⟨.channelData, id, dlen, d⟩, none, none⟩ w2
        (P2p.step_handle ⟨some ⟨.channelSubscribe, id, lbl.length + 1,
          lbl ++ [t]⟩, none, none⟩ w s).st).tr ∧
    lookupA id (P2p.step_handle ⟨some ⟨.channelData, id, dlen, d⟩, none,
        none⟩ w2 (P2p.step_handle ⟨some ⟨.channelSubscribe, id,
          lbl.length + 1, lbl ++ [t]⟩, none, none⟩ w s).st).st.clients =
      some ⟨(s.next : Int), some s.next, lbl⟩ := by
  have hextract : extractUser (lbl.length + 1) (lbl ++ [t]) =
      .okLabel lbl := by
    simp [extractUser, hutf, List.take_left]
  rw [p2p_subscribe_step w s id (lbl.length + 1) (lbl ++ [t]) lbl hextract]
  dsimp only
  have hb : lookupA id
      ((insertA id ⟨-1, none, lbl⟩ s.clients).map
        (fun kv => (kv.1, P2p.monVal w kv.2))) =
      some ⟨-1, none, lbl⟩ := by
    rw [lookupA_map_val, lookupA_insertA_self]
    simp [P2p.monVal]
  refine ⟨rfl, hb, ?_, ?_⟩
  · rw [p2p_data_spawn_step w2
      ⟨(insertA id ⟨-1, none, lbl⟩ s.clients).map
        (fun kv => (kv.1, P2p.monVal w kv.2)), s.next⟩
      id dlen d ⟨-1, none, lbl⟩ hb rfl hsp]
    exact List.mem_append_left _ (List.mem_cons_self _ _)
  · rw [p2p_data_spawn_step w2
      ⟨(insertA id ⟨-1, none, lbl⟩ s.clients).map
        (fun kv => (kv.1, P2p.monVal w kv.2)), s.next⟩
      id dlen d ⟨-1, none, lbl⟩ hb rfl hsp]
    dsimp only
    rw [lookupA_map_val, lookupA_insertA_self]
    simp [P2p.monVal, hex2]

theorem C8_identity_label_env_witness :
    (P2p.step_handle ⟨some ⟨.channelSubscribe, 7, 6,
        [97, 108, 105, 99, 101, 0]⟩, none, none⟩ w0 P2p.init).out =
      .ok ∧
    lookupA 7 (P2p.step_handle ⟨some ⟨.channelSubscribe, 7, 6,
        [97, 108, 105, 99, 101, 0]⟩, none, none⟩ w0
        P2p.init).st.clients =
      some ⟨-1, none, [97, 108, 105, 99, 101]⟩ ∧
    Effect.spawnEnv 0 [97, 108, 105, 99, 101] (decimalAscii 7) true true ∈
      (P2p.step_handle ⟨some ⟨.channelData, 7, 4, [112, 105, 110, 103]⟩,
        none, none⟩ w0
        (P2p.step_handle ⟨some ⟨.channelSubscribe, 7, 6,
          [97, 108, 105, 99, 101, 0]⟩, none, none⟩ w0 P2p.init).st).tr ∧
    lookupA 7 (P2p.step_handle ⟨some ⟨.channelData, 7, 4,
        [112, 105, 110, 103]⟩, none, none⟩ w0
        (P2p.step_handle ⟨some ⟨.channelSubscribe, 7, 6,
          [97, 108, 105, 99, 101, 0]⟩, none, none⟩ w0
          P2p.init).st).st.clients =
      some ⟨(0 : Int), some 0, [97, 108, 105, 99, 101]⟩ := by
  have h := C8_identity_label_env w0 w0 P2p.init 7 0 4
    [97, 108, 105, 99, 101] [112, 105, 110, 103] (by decide) rfl rfl
  exact h

/-- Claim C9: in the exclusive and identity-aware policies, message
handling precedes the liveness monitor, which precedes readiness
handling; consequently, when a step detects the exit of the process
bound to a descriptor, the binding is cleared before readiness handling:
a readiness notification for that descriptor in the same step causes no
read at all, while the descriptor is unregistered by the monitor. (The
shared policy has no liveness monitor and never detects exits, so the
consequent is vacuous there.) -/
theorem C9_exit_before_read (w wp : World) (sm : Excl.MState)
    (sp : P2p.PState) (idm idp pidp statusm statusp : Nat)
    (cdm : Excl.ClientData) (cdp : P2p.ClientData)
    (hlookM : lookupA idm sm.clients = some (some cdm))
    (hexM : w.exited cdm.pid = some statusm)
    (hownM : ∀ kv ∈ sm.clients, ∀ cd' : Excl.ClientData,
      kv.2 = some cd' → cd'.fd = cdm.fd → cd'.pid = cdm.pid)
    (hlookP : lookupA idp sp.clients = some cdp)
    (hchP : cdp.child = some pidp)
    (hexP : wp.exited pidp = some statusp)
    (hownP : ∀ kv ∈ sp.clients, ∀ pid' : Nat,
      kv.2.child = some pid' → kv.2.fd = cdp.fd → pid' = pidp) :
    (Effect.unregister_io cdm.fd ∈
      (Excl.step_handle ⟨none, some true, some cdm.fd⟩ w sm).tr ∧
     ∀ p n : Nat, Effect.readStdout p n ∉
      (Excl.step_handle ⟨none, some true, some cdm.fd⟩ w sm).tr) ∧
    (Effect.unregister_io cdp.fd ∈
      (P2p.step_handle ⟨none, some true, some cdp.fd⟩ wp sp).tr ∧
     ∀ p n : Nat, Effect.readStdout p n ∉
      (P2p.step_handle ⟨none, some true, some cdp.fd⟩ wp sp).tr) := by
  constructor
  · rw [excl_read_step]
    dsimp only
    constructor
    · exact List.mem_append_left _
        (mem_catMap_of (lookupA_mem hlookM)
          (by simp [Excl.monTr, hexM]))
    · intro p n hmem
      rcases List.mem_append.1 hmem with hmon | hread
      · obtain ⟨kv, hkv, hx⟩ := mem_catMap hmon
        cases hv : kv.2 with
        | none => rw [hv] at hx; simp [Excl.monTr] at hx
        | some cd' =>
          rw [hv] at hx
          cases hx2 : w.exited cd'.pid with
          | none => simp [Excl.monTr, hx2] at hx
          | some st => simp [Excl.monTr, hx2] at hx
      · obtain ⟨kv', hkv', hx⟩ := mem_catMap hread
        obtain ⟨kv0, hkv0, rfl⟩ := List.mem_map.1 hkv'
        dsimp only at hx
        cases hv : kv0.2 with
        | none =>
          rw [show Excl.monVal w kv0.2 = none by
            simp [Excl.monVal, hv]] at hx
          simp at hx
        | some cd0 =>
          cases he : w.exited cd0.pid with
          | some st =>
            rw [show Excl.monVal w kv0.2 = none by
              simp [Excl.monVal, hv, he]] at hx
            simp at hx
          | none =>
            rw [show Excl.monVal w kv0.2 = some cd0 by
              simp [Excl.monVal, hv, he]] at hx
            by_cases hf : cd0.fd = cdm.fd
            · rw [hownM kv0 hkv0 cd0 hv hf, hexM] at he
              cases he
            · simp [hf] at hx
  · rw [p2p_read_step]
    dsimp only
    constructor
    · exact List.mem_append_left _
        (mem_catMap_of (lookupA_mem hlookP)
          (by simp [P2p.monTr, hchP, hexP]))
    · intro p n hmem
      rcases List.mem_append.1 hmem with hmon | hread
      · obtain ⟨kv, hkv, hx⟩ := mem_catMap hmon
        cases hv : kv.2.child with
        | none => simp [P2p.monTr, hv] at hx
        | some pid' =>
          cases hx2 : wp.exited pid' with
          | none => simp [P2p.monTr, hv, hx2] at hx
          | some st => simp [P2p.monTr, hv, hx2] at hx
      · obtain ⟨kv', hkv', hx⟩ := mem_catMap hread
        obtain ⟨kv0, hkv0, rfl⟩ := List.mem_map.1 hkv'
        dsimp only at hx
        cases hc : kv0.2.child with
        | none =>
          have hm : P2p.monVal wp kv0.2 = kv0.2 := by
            simp [P2p.monVal, hc]
          rw [hm] at hx
          by_cases hf : kv0.2.fd = cdp.fd
          · simp [hf, hc] at hx
          · simp [hf] at hx
        | some pid0 =>
          cases he : wp.exited pid0 with
          | some st =>
            have hm : P2p.monVal wp kv0.2 = ⟨-1, none, kv0.2.user⟩ := by
              simp [P2p.monVal, hc, he]
            rw [hm] at hx
            simp at hx
          | none =>
            have hm : P2p.monVal wp kv0.2 = kv0.2 := by
              simp [P2p.monVal, hc, he]
            rw [hm] at hx
            by_cases hf : kv0.2.fd = cdp.fd
            · rw [hownP kv0 hkv0 pid0 hc hf, hexP] at he
              cases he
            · simp [hf] at hx

theorem C9_exit_before_read_witness :
    (Effect.unregister_io 5 ∈
      (Excl.step_handle ⟨none, some true, some 5⟩ wExit9
        ⟨[(1, some ⟨5, 9⟩)], 10⟩).tr ∧
     ∀ p n : Nat, Effect.readStdout p n ∉
      (Excl.step_handle ⟨none, some true, some 5⟩ wExit9
        ⟨[(1, some ⟨5, 9⟩)], 10⟩).tr) ∧
    (Effect.unregister_io 5 ∈
      (P2p.step_handle ⟨none, some true, some 5⟩ wExit9
        ⟨[(3, ⟨5, some 9, [97]⟩)], 10⟩).tr ∧
     ∀ p n : Nat, Effect.readStdout p n ∉
      (P2p.step_handle ⟨none, some true, some 5⟩ wExit9
        ⟨[(3, ⟨5, some 9, [97]⟩)], 10⟩).tr) :=
  C9_exit_before_read wExit9 wExit9 ⟨[(1, some ⟨5, 9⟩)], 10⟩
    ⟨[(3, ⟨5, some 9, [97]⟩)], 10⟩ 1 3 9 0 0 ⟨5, 9⟩ ⟨5, some 9, [97]⟩
    rfl rfl
    (by
      intro kv hkv cd' h1 _
      have hk := List.mem_singleton.1 hkv
      subst hk
      cases h1
      rfl)
    rfl rfl rfl
    (by
      intro kv hkv pid' h1 _
      have hk := List.mem_singleton.1 hkv
      subst hk
      cases h1
      rfl)

end Tunnel
